import Mathlib

/-!
Verification development for the KLM_Backend daily-word service.

The definitions below are a shallow embedding of `src/app/main.py` and
`src/app/ksaa_client.py`.  JSON payloads returned by the upstream dictionary
API are modelled by an inductive `Json` type; Python strings are Lean
`String`s; Python `None`-able values are `Option`s; code that can raise is
modelled in `Except PyErr`.  The HTTP client object is modelled as a record
of the attributes that `main.py` actually accesses (Python is duck typed and
`main.py` probes `hasattr(client, "search_batch")`), and the concrete
`KSAAClient` from `ksaa_client.py` is one instantiation of that record,
parameterised by an upstream oracle supplying the raw HTTP responses.
-/

/-- Model of a Python/JSON value as handled by the service. -/
inductive Json where
  | null : Json
  | bool : Bool → Json
  | num : Int → Json
  | str : String → Json
  | arr : List Json → Json
  | obj : List (String × Json) → Json

/-- Python `dict.get`: first binding of the key, `none` when absent. -/
def getKey : List (String × Json) → String → Option Json
  | [], _ => none
  | (k, v) :: rest, key => if k = key then some v else getKey rest key

/-- Python truthiness of a JSON value. -/
def jTruthy : Json → Bool
  | .null => false
  | .bool b => b
  | .num n => n != 0
  | .str s => s != ""
  | .arr l => !l.isEmpty
  | .obj kvs => !kvs.isEmpty

/-- Python `a or b` where `a` is an optional lookup result: the left value
when it is present and truthy, otherwise the right value. -/
def truthyOr (a : Option Json) (b : Json) : Json :=
  match a with
  | some v => if jTruthy v then v else b
  | none => b

/-- Exceptions raised by the embedded code. -/
inductive PyErr where
  | typeError (msg : String)
  | attributeError (msg : String)
  | httpStatus (code : Nat) (msg : String)
  | runtime (msg : String)
deriving DecidableEq, Repr

/-- Characters stripped by Python `str.strip()` (Unicode whitespace,
per `str.isspace`). -/
def pyIsSpace (c : Char) : Bool :=
  let n := c.toNat
  (9 ≤ n && n ≤ 13) || (28 ≤ n && n ≤ 31) || n == 32 || n == 0x85 || n == 0xA0 ||
  n == 0x1680 || (0x2000 ≤ n && n ≤ 0x200A) || n == 0x2028 || n == 0x2029 ||
  n == 0x202F || n == 0x205F || n == 0x3000

/-- Python `str.strip()`: remove leading and trailing whitespace. -/
def pyStrip (s : String) : String :=
  String.mk (((s.data.dropWhile pyIsSpace).reverse.dropWhile pyIsSpace).reverse)

/-- Python `str(b)` for a bool (`isinstance(True, int)` holds in Python, so
bools flow through the `(str, int)` probes). -/
def pyBoolStr (b : Bool) : String := if b then "True" else "False"

/-- Python `str(n)` for an int. -/
def pyIntStr (n : Int) : String := toString n

/-- Python `sub in s` for strings (substring containment). -/
def strContains (s sub : String) : Bool := (s.splitOn sub).length != 1

/-- A character matched by the regex `[ً-ْٰ]`
(tashkeel + dagger alif), from `main.py` / `ksaa_client.py`. -/
def isArDiacritic (c : Char) : Bool :=
  (0x64B ≤ c.toNat && c.toNat ≤ 0x652) || c.toNat == 0x670

/-- Source `strip_diacritics` (main.py line 81 / ksaa_client.py line 16): remove all
characters of the diacritic class.  `re.sub` of a single-character class is
character filtering. -/
def strip_diacritics (s : String) : String :=
  String.mk (s.data.filter (fun c => !isArDiacritic c))

/-- Source `base_len_ar` (main.py line 84): length after diacritic removal. -/
def base_len_ar (s : String) : Nat := (strip_diacritics s).length

/-- A character in the base-letter class `[ء-ي]`. -/
def isArBaseLetter (c : Char) : Bool :=
  0x621 ≤ c.toNat && c.toNat ≤ 0x64A

/-- Semantics of `re.match(r"^[ء-ي]+$", s)` in Python: one or more
base letters spanning the whole string, where `$` also matches just before a
single newline at the end of the string. -/
def lineMatchAr (cs : List Char) : Bool :=
  (!cs.isEmpty && cs.all isArBaseLetter) ||
  (match cs.reverse with
   | c :: rest => c == '\n' && (!rest.isEmpty && rest.all isArBaseLetter)
   | [] => false)

/-- Source `is_ar_letters_only` (main.py line 87): the diacritic-stripped form is
non-empty and matches `^[ء-ي]+$`. -/
def is_ar_letters_only (s : String) : Bool :=
  let b := strip_diacritics s
  !b.data.isEmpty && lineMatchAr b.data

/-- Source `_first_str` (main.py line 119): first argument that is a string with
non-blank content, stripped. -/
def first_str : List (Option Json) → Option String
  | [] => none
  | some (.str v) :: rest => if pyStrip v = "" then first_str rest else some (pyStrip v)
  | _ :: rest => first_str rest

/-- First non-blank string in a list of JSON values (the `for item in
s["senses"]` loop of `extract_definition_from_senses`). -/
def firstNonemptyStr : List Json → Option String
  | [] => none
  | .str v :: rest => if pyStrip v = "" then firstNonemptyStr rest else some (pyStrip v)
  | _ :: rest => firstNonemptyStr rest

/-- Probe a priority list of keys for a non-blank string value, returning it
stripped (the field-probe loops of `normalize_word`). -/
def strProbe (kvs : List (String × Json)) : List String → Option String
  | [] => none
  | k :: rest =>
    match getKey kvs k with
    | some (.str s) => if pyStrip s = "" then strProbe kvs rest else some (pyStrip s)
    | _ => strProbe kvs rest

def headwordKeys : List String :=
  ["lemma", "form", "headword", "word", "display", "text", "title", "entryHead"]

def nestedFormKeys : List String := ["text", "value", "form"]

/-- Source `normalize_word` (main.py line 91): probe common headword fields, then a
nested `form` object; empty string when nothing is found. -/
def normalize_word (kvs : List (String × Json)) : String :=
  match strProbe kvs headwordKeys with
  | some w => w
  | none =>
    match getKey kvs "form" with
    | some (.obj fk) =>
      match strProbe fk nestedFormKeys with
      | some w => w
      | none => ""
    | _ => ""

def entryIdKeys : List String := ["id", "entryId", "lexicalEntryId", "uuid", "uid", "eid"]

def metaIdKeys : List String := ["id", "entryId", "lexicalEntryId"]

/-- Probe id-like keys: a `str` or `int` (or bool, which is an `int` in
Python) value `v` with `str(v).strip()` non-blank, returned as `str(v)`. -/
def idProbe (kvs : List (String × Json)) : List String → Option String
  | [] => none
  | k :: rest =>
    match getKey kvs k with
    | some (.str s) => if pyStrip s = "" then idProbe kvs rest else some s
    | some (.num n) => if pyStrip (pyIntStr n) = "" then idProbe kvs rest else some (pyIntStr n)
    | some (.bool b) => if pyStrip (pyBoolStr b) = "" then idProbe kvs rest else some (pyBoolStr b)
    | _ => idProbe kvs rest

/-- Source `normalize_entry_id` (main.py line 106): probe typical identifier keys,
then a nested `meta`/`metadata` object. -/
def normalize_entry_id (kvs : List (String × Json)) : Option String :=
  match idProbe kvs entryIdKeys with
  | some s => some s
  | none =>
    match truthyOr (getKey kvs "meta") (truthyOr (getKey kvs "metadata") (Json.obj [])) with
    | .obj mk => idProbe mk metaIdKeys
    | _ => none

/-- Language tags treated as Arabic by `extract_definition_from_senses`. -/
def arLangs : List String := ["ar", "ara", "ar-SA", "ar_SA", "AR"]

/-- Check `r.get("lang") in ("ar","ara","ar-SA","ar_SA","AR")`. -/
def langIsAr (kvs : List (String × Json)) : Bool :=
  match getKey kvs "lang" with
  | some (.str t) => arLangs.contains t
  | _ => false

/-- First Arabic-tagged representation with a non-blank `text`/`value`. -/
def repsFirstAr : List Json → Option String
  | [] => none
  | .obj kvs :: rest =>
    if langIsAr kvs then
      match first_str [getKey kvs "text", getKey kvs "value"] with
      | some t => some t
      | none => repsFirstAr rest
    else repsFirstAr rest
  | _ :: rest => repsFirstAr rest

/-- First representation dict with a non-blank `text`/`value`. -/
def repsFirstAny : List Json → Option String
  | [] => none
  | .obj kvs :: rest =>
    match first_str [getKey kvs "text", getKey kvs "value"] with
    | some t => some t
    | none => repsFirstAny rest
  | _ :: rest => repsFirstAny rest

/-- Representation-array extraction: prefer Arabic-tagged, else first textual. -/
def repsExtract (l : List Json) : Option String :=
  match repsFirstAr l with
  | some t => some t
  | none => repsFirstAny l

/-- Second pass of the `definitions` array variant: dict `text`/`value` or a
plain non-blank string element. -/
def defsFirstAny : List Json → Option String
  | [] => none
  | .obj kvs :: rest =>
    match first_str [getKey kvs "text", getKey kvs "value"] with
    | some t => some t
    | none => defsFirstAny rest
  | .str v :: rest => if pyStrip v = "" then defsFirstAny rest else some (pyStrip v)
  | _ :: rest => defsFirstAny rest

/-- The `definitions`/`definitionList` extraction: Arabic-lang-tagged dicts first,
then any textual element. -/
def defsExtract (l : List Json) : Option String :=
  match repsFirstAr l with
  | some t => some t
  | none => defsFirstAny l

def representationKeys : List String :=
  ["representations", "definitionRepresentations", "senseDefinitionRepresentations",
   "statementRepresentations"]

/-- The loop over the four representation-array keys.  (In case B the source
additionally requires the list to be non-empty before scanning it; since
scanning an empty list yields nothing and control falls to the next key
either way, the behaviour agrees.) -/
def repsAtKeys (kvs : List (String × Json)) : List String → Option String
  | [] => none
  | key :: rest =>
    match getKey kvs key with
    | some (.arr l) =>
      match repsExtract l with
      | some t => some t
      | none => repsAtKeys kvs rest
    | _ => repsAtKeys kvs rest

/-- The per-record body of Case B of `extract_definition_from_senses`
(main.py lines 139-199). -/
def senseDictExtract (kvs : List (String × Json)) : Option String :=
  match (match getKey kvs "senses" with
         | some (.arr l) => if l.isEmpty then none else firstNonemptyStr l
         | _ => none) with
  | some t => some t
  | none =>
  match first_str [getKey kvs "definition_ar", getKey kvs "gloss_ar",
                   getKey kvs "definition", getKey kvs "gloss"] with
  | some t => some t
  | none =>
  match (match getKey kvs "definition" with
         | some (.obj dk) => first_str [getKey dk "value", getKey dk "text"]
         | _ => none) with
  | some t => some t
  | none =>
  match repsAtKeys kvs representationKeys with
  | some t => some t
  | none =>
    match truthyOr (getKey kvs "definitions")
            (match getKey kvs "definitionList" with | some v => v | none => Json.null) with
    | .arr l => if l.isEmpty then none else defsExtract l
    | _ => none

/-- Case B loop of `extract_definition_from_senses`: scan each dict element
for textual content. -/
def caseBloop : List Json → Option String
  | [] => none
  | .obj kvs :: rest =>
    match senseDictExtract kvs with
    | some t => some t
    | none => caseBloop rest
  | _ :: rest => caseBloop rest

/-- Case C of `extract_definition_from_senses` (main.py lines 203-231): a
single dict, probed for direct fields, a definition object and the
representation arrays (the `definitions` variant is absent in this case). -/
def caseCExtract (kvs : List (String × Json)) : Option String :=
  match first_str [getKey kvs "definition_ar", getKey kvs "gloss_ar",
                   getKey kvs "definition", getKey kvs "gloss"] with
  | some t => some t
  | none =>
  match (match getKey kvs "definition" with
         | some (.obj dk) => first_str [getKey dk "value", getKey dk "text"]
         | _ => none) with
  | some t => some t
  | none => repsAtKeys kvs representationKeys

/-- Source `extract_definition_from_senses` (main.py line 125): Case A, a list whose
first element is a string; Case B, a list whose first element is a dict;
Case C, a single dict; otherwise nothing.  A list whose Case B scan finds
nothing falls through Case C (which rejects lists) and yields `none`. -/
def extract_definition_from_senses : Json → Option String
  | .arr (x :: xs) =>
    match x with
    | .str s0 => if pyStrip s0 = "" then none else some (pyStrip s0)
    | .obj _ => caseBloop (x :: xs)
    | _ => none
  | .obj kvs => caseCExtract kvs
  | _ => none

/-- Source `_collect_total` (ksaa_client.py line 65): read a total from `total`,
`count`, a nested `page.totalElements`, or fall back to `max(1, len(...))`
of an `items`/`content`/bare list; 0 when nothing is recognised.
`isinstance(x, int)` also accepts bools in Python (`int(True) = 1`). -/
def collect_total : Json → Int
  | .obj kvs =>
    (match getKey kvs "total" with
     | some (.num t) => t
     | some (.bool b) => if b then 1 else 0
     | _ =>
       match getKey kvs "count" with
       | some (.num t) => t
       | some (.bool b) => if b then 1 else 0
       | _ =>
         match (match getKey kvs "page" with
                | some (.obj pg) =>
                  (match getKey pg "totalElements" with
                   | some (.num t) => some t
                   | some (.bool b) => some (if b then (1 : Int) else 0)
                   | _ => none)
                | _ => none) with
         | some t => t
         | none =>
           match getKey kvs "items" with
           | some (.arr l) => max 1 (l.length : Int)
           | _ =>
             match getKey kvs "content" with
             | some (.arr l) => max 1 (l.length : Int)
             | _ => 0)
  | .arr l => max 1 (l.length : Int)
  | _ => 0

/-- Source `_collect_items` (ksaa_client.py line 81): the raw entry list held in the
payload itself, or its `items`/`content` field. -/
def collect_items : Json → List Json
  | .arr l => l
  | .obj kvs =>
    (match getKey kvs "items" with
     | some (.arr l) => l
     | _ =>
       match getKey kvs "content" with
       | some (.arr l) => l
       | _ => [])
  | _ => []

/-- Oracle for the raw HTTP responses of the upstream dictionary API.
`searchA` is `/public/search` under the `lexiconId` + `offset`/`limit`
convention, `searchB` the `lexiconIds` + `page`/`size` convention;
`senses` is `/public/senses` keyed by the identifier parameter name tried;
`lexicons` is `/public/lexicons`. -/
structure Upstream where
  lexicons : Except PyErr Json
  searchA : String → String → Nat → Nat → Except PyErr Json
  searchB : String → String → Nat → Nat → Except PyErr Json
  senses : String → String → Except PyErr Json

def DEFAULT_QUERY : String := "ا"

/-- Source `_q` (ksaa_client.py line 62): the query when truthy and non-blank,
otherwise the default seed character. -/
def pyQ (q : Option String) : String :=
  match q with
  | some s => if s ≠ "" && pyStrip s ≠ "" then s else DEFAULT_QUERY
  | none => DEFAULT_QUERY

/-- Python `query or DEFAULT_QUERY`. -/
def pyOrStr (q : Option String) (d : String) : String :=
  match q with
  | some s => if s ≠ "" then s else d
  | none => d

/-- Source `KSAAClient._search_try_both` (ksaa_client.py line 107): convention A
first; on an HTTP 400/404 status error retry once with convention B, with
`page = offset`; any other error propagates. -/
def search_try_both (up : Upstream) (query : String) (lexicon_id : String)
    (offset limit : Nat) : Except PyErr Json :=
  match up.searchA (pyQ (some query)) lexicon_id offset limit with
  | .ok d => .ok d
  | .error (.httpStatus c m) =>
    if c = 400 ∨ c = 404 then up.searchB (pyQ (some query)) lexicon_id offset limit
    else .error (.httpStatus c m)
  | .error e => .error e

/-- Source `KSAAClient.count_candidates` (ksaa_client.py line 122): a limit-1 search,
and when its total parses to 0, one limit-10 retry. -/
def ksaaCountCandidates (up : Upstream) (lexicon_id : String) (query : Option String) :
    Except PyErr Int :=
  match search_try_both up (pyOrStr query DEFAULT_QUERY) lexicon_id 0 1 with
  | .error e => .error e
  | .ok data =>
    let total := collect_total data
    if total ≠ 0 then .ok total
    else
      match search_try_both up (pyOrStr query DEFAULT_QUERY) lexicon_id 0 10 with
      | .error e => .error e
      | .ok data2 =>
        let t2 := collect_total data2
        .ok (if t2 ≠ 0 then t2 else 0)

/-- Source `KSAAClient.get_entry_by_index` (ksaa_client.py line 130). -/
def ksaaGetEntryByIndex (up : Upstream) (lexicon_id : String) (index : Nat)
    (query : Option String) : Except PyErr Json :=
  match search_try_both up (pyOrStr query DEFAULT_QUERY) lexicon_id index 1 with
  | .error e => .error e
  | .ok data =>
    match collect_items data with
    | [] => .error (.runtime "No entries returned for that index")
    | x :: _ => .ok x

def sensesParamNames : List String := ["entryId", "entryIds", "lexicalEntryId"]

/-- The parameter-name loop of `KSAAClient.get_senses` (ksaa_client.py
line 137): each name is tried; a 400/404 moves to the next name, other HTTP
errors propagate; a list payload or an `items`/`senses` list field is
returned; a dict without either moves on; membership probes on non-container
payloads raise `TypeError` as in Python. -/
def ksaaGetSensesLoop (up : Upstream) (entry_id : String) : List String → Except PyErr (List Json)
  | [] => .ok []
  | p :: rest =>
    match up.senses p entry_id with
    | .error (.httpStatus c m) =>
      if c = 400 ∨ c = 404 then ksaaGetSensesLoop up entry_id rest
      else .error (.httpStatus c m)
    | .error e => .error e
    | .ok data =>
      match data with
      | .arr l => .ok l
      | .obj kvs =>
        (match getKey kvs "items" with
         | some (.arr l) => .ok l
         | _ =>
           match getKey kvs "senses" with
           | some (.arr l) => .ok l
           | _ => ksaaGetSensesLoop up entry_id rest)
      | .str s =>
        if strContains s "items" || strContains s "senses" then
          .error (.typeError "string indices must be integers")
        else ksaaGetSensesLoop up entry_id rest
      | _ => .error (.typeError "argument is not iterable")

/-- Parameter names (besides `self`) of `KSAAClient.get_senses`
(ksaa_client.py line 137): `entry_id` only. -/
def getSensesParams : List String := ["entry_id"]

/-- A Python call binds a keyword argument only when the callee has a
parameter of that name (no `**kwargs` in sight here). -/
def acceptsKwargs (params : List String) (kwargs : List String) : Bool :=
  kwargs.all (fun k => params.contains k)

/-- Semantics of the call `client.get_senses(eid, lexicon_id=lexicon_id)`
appearing in main.py lines 272 and 468: the method's signature accepts
`entry_id` only, so the call raises `TypeError` before the body runs; had
the keyword been accepted, the body of `get_senses` would run. -/
def callKSAAGetSenses (up : Upstream) (entry_id _lexicon_id : String) : Except PyErr Json :=
  if acceptsKwargs getSensesParams ["lexicon_id"] then
    match ksaaGetSensesLoop up entry_id sensesParamNames with
    | .ok l => .ok (.arr l)
    | .error e => .error e
  else
    .error (.typeError "get_senses() got an unexpected keyword argument lexicon_id")

structure KsaaConfig where
  lexicon_id : Option String
  lexicon_name : String

/-- Best-effort stringification of the lexicon id value returned by
`find_lexicon_id` (the raw JSON value is later serialised into query
parameters by the HTTP layer). -/
def jsonIdStr : Json → String
  | .str s => s
  | .num n => pyIntStr n
  | .bool b => pyBoolStr b
  | .null => "None"
  | _ => ""

/-- The lexicon-matching loop of `KSAAClient.find_lexicon_id`: a truthy name
string containing the configured name matches; truthy non-string names would
make the containment test raise; non-dict items raise on `.get`. -/
def findLexLoop (name_sub : String) : List Json → Except PyErr String
  | [] => .error (.runtime ("Lexicon not found by name: " ++ name_sub))
  | .obj kvs :: rest =>
    (match truthyOr (getKey kvs "name") (truthyOr (getKey kvs "title")
            (truthyOr (getKey kvs "arName") (truthyOr (getKey kvs "displayName") Json.null))) with
     | .str s =>
       if s ≠ "" && strContains s name_sub then
         .ok (jsonIdStr (truthyOr (getKey kvs "id")
                (truthyOr (getKey kvs "lexiconId") Json.null)))
       else findLexLoop name_sub rest
     | nm =>
       if jTruthy nm then .error (.typeError "unsupported membership test on lexicon name")
       else findLexLoop name_sub rest)
  | _ :: _rest => .error (.attributeError "lexicon item has no attribute get")

/-- Python iteration over the object obtained from an `items` field: lists
yield elements, strings yield characters, dicts yield keys, other values are
not iterable. -/
def pyIter : Json → Except PyErr (List Json)
  | .arr l => .ok l
  | .str s => .ok (s.data.map (fun c => .str (String.mk [c])))
  | .obj kvs => .ok (kvs.map (fun kv => .str kv.1))
  | _ => .error (.typeError "object is not iterable")

/-- The fetch path of `KSAAClient.find_lexicon_id` (ksaa_client.py line 96). -/
def ksaaFindLexiconFetch (cfg : KsaaConfig) (up : Upstream) : Except PyErr String :=
  match up.lexicons with
  | .error e => .error e
  | .ok (.arr l) => findLexLoop cfg.lexicon_name l
  | .ok (.obj kvs) =>
    (match pyIter (match getKey kvs "items" with | some v => v | none => .arr []) with
     | .ok l => findLexLoop cfg.lexicon_name l
     | .error e => .error e)
  | .ok _ => .error (.attributeError "lexicons payload has no attribute get")

/-- Source `KSAAClient.find_lexicon_id`: the configured id when truthy, otherwise
the fetched-and-matched id. -/
def ksaaFindLexiconId (cfg : KsaaConfig) (up : Upstream) : Except PyErr String :=
  match cfg.lexicon_id with
  | some l => if l ≠ "" then .ok l else ksaaFindLexiconFetch cfg up
  | none => ksaaFindLexiconFetch cfg up

/-- The duck-typed client object as accessed by main.py: `search_batch` and
`get_senses_by_query` are looked up dynamically (`hasattr` /
attribute-missing), hence `Option` fields; `get_senses_call` is the
semantics of the call `client.get_senses(eid, lexicon_id=...)`. -/
structure Client where
  find_lexicon_id : Except PyErr String
  count_candidates : String → Except PyErr Int
  search_batch : Option (String → Nat → Nat → String → Except PyErr Json)
  get_entry_by_index : String → Nat → String → Except PyErr Json
  get_senses_call : String → String → Except PyErr Json
  get_senses_by_query : Option (String → String → Except PyErr Json)

/-- The concrete `KSAAClient` of ksaa_client.py viewed as a `Client`: it
defines neither `search_batch` nor `get_senses_by_query`. -/
def KSAAClient.toClient (cfg : KsaaConfig) (up : Upstream) : Client where
  find_lexicon_id := ksaaFindLexiconId cfg up
  count_candidates := fun lex => ksaaCountCandidates up lex none
  search_batch := none
  get_entry_by_index := fun lex idx q => ksaaGetEntryByIndex up lex idx (some q)
  get_senses_call := fun eid lex => callKSAAGetSenses up eid lex
  get_senses_by_query := none

def MIN_LEN : Nat := 4
def MAX_LEN : Nat := 7
def BATCH_SIZE : Nat := 100
def MAX_RANDOM_TRIES : Nat := 20
def COLLECT_ATTEMPT_MULTIPLIER : Nat := 20
def COLLECT_ATTEMPTS_MIN : Nat := 200

/-- A candidate triple `(word, definition, entry_id)`. -/
abbrev Cand := String × Option String × Option String

/-- Truthiness of an `Optional[str]`: present and non-empty. -/
def pyTruthyStrOpt : Option String → Bool
  | some s => s ≠ ""
  | none => false

/-- Check `if eid and eid in exclude_entry_ids`. -/
def eidExcluded (eid : Option String) (excl : List String) : Bool :=
  match eid with
  | some e => e ≠ "" && excl.contains e
  | none => false

/-- The definition-resolution step shared by `_scan_entries_for_candidate`
(main.py lines 270-276) and `_collect_words` (lines 466-472): entry-id-based
`get_senses` lookup first, then the `get_senses_by_query` free-text
fallback when no definition was obtained. -/
def resolveDefinition (client : Client) (lexicon_id : String) (eid : Option String)
    (word : String) : Except PyErr (Option String) :=
  match (match eid with
         | some e =>
           if e ≠ "" then
             match client.get_senses_call e lexicon_id with
             | .error er => Except.error er
             | .ok senses => Except.ok (extract_definition_from_senses senses)
           else Except.ok none
         | none => Except.ok none) with
  | .error er => .error er
  | .ok d1 =>
    if pyTruthyStrOpt d1 then .ok d1
    else
      match client.get_senses_by_query with
      | none => .error (.attributeError "KSAAClient object has no attribute get_senses_by_query")
      | some f =>
        match f word lexicon_id with
        | .error er => .error er
        | .ok sq => .ok (extract_definition_from_senses sq)

/-- Loop body of `_scan_entries_for_candidate` (main.py line 247): filter by
headword, letters, length and the exclusion sets; resolve a definition;
return the first definition-bearing candidate immediately, else remember the
first valid candidate.  Non-dict entries raise on `.get` as in Python. -/
def scanEntriesAux (client : Client) (lexicon_id : String) (exW exE : List String) :
    List Json → Option Cand → Except PyErr (Option Cand)
  | [], best => .ok best
  | entry :: rest, best =>
    match entry with
    | .obj kvs =>
      if normalize_word kvs = "" ∨ is_ar_letters_only (normalize_word kvs) = false then
        scanEntriesAux client lexicon_id exW exE rest best
      else if ¬ (MIN_LEN ≤ base_len_ar (normalize_word kvs) ∧
                 base_len_ar (normalize_word kvs) ≤ MAX_LEN) then
        scanEntriesAux client lexicon_id exW exE rest best
      else if normalize_word kvs ∈ exW ∨ eidExcluded (normalize_entry_id kvs) exE = true then
        scanEntriesAux client lexicon_id exW exE rest best
      else
        match resolveDefinition client lexicon_id (normalize_entry_id kvs) (normalize_word kvs) with
        | .error e => .error e
        | .ok defn =>
          if pyTruthyStrOpt defn then .ok (some (normalize_word kvs, defn, normalize_entry_id kvs))
          else
            scanEntriesAux client lexicon_id exW exE rest
              (match best with
               | none => some (normalize_word kvs, defn, normalize_entry_id kvs)
               | some b => some b)
    | _ => .error (.attributeError "entry object has no attribute get")

/-- Source `_scan_entries_for_candidate`. -/
def scanEntries (client : Client) (items : List Json) (lexicon_id : String)
    (exW exE : List String) : Except PyErr (Option Cand) :=
  scanEntriesAux client lexicon_id exW exE items none

/-- The `items` extraction after `search_batch` (main.py lines 336-341 and
431-435): the payload itself when a list, else `get("items") or
get("content") or []` iterated. -/
def batchItems : Json → Except PyErr (List Json)
  | .arr l => .ok l
  | .obj kvs =>
    pyIter (truthyOr (getKey kvs "items") (truthyOr (getKey kvs "content") (.arr [])))
  | _ => .ok []

/-- The single-entry probe window (main.py lines 351-359 and 437-446): up to
`window` `get_entry_by_index` calls at consecutive wrapped offsets, each
failure swallowed by `except Exception: continue`. -/
def probeItems (client : Client) (lexicon_id : String) (total : Nat) (seed : String)
    (start : Nat) (window : Nat) : List Json :=
  (List.range window).filterMap
    (fun step => (client.get_entry_by_index lexicon_id ((start + step) % total) seed).toOption)

structure CacheRow where
  ymd : String
  word : String
  definition : Option String
  entry_id : Option String
  lexicon_id : Option String
deriving DecidableEq, Repr

/-- The `DailyWord` response model (main.py line 51). -/
structure DailyWord where
  date : String
  word : String
  definition : Option String
  entry_id : Option String
  lexicon_id : Option String
  source : String := "معجم الرياض للغة العربية المعاصرة"
deriving DecidableEq, Repr

inductive HttpResult (α : Type) where
  | ok : α → HttpResult α
  | httpError : Nat → String → HttpResult α
deriving DecidableEq, Repr

def pyErrMsg : PyErr → String
  | .typeError m => m
  | .attributeError m => m
  | .httpStatus _ m => m
  | .runtime m => m

def dailyFromRow (ymd : String) (r : CacheRow) : DailyWord :=
  { date := ymd, word := r.word, definition := r.definition,
    entry_id := r.entry_id, lexicon_id := r.lexicon_id }

/-- The random-attempt loop of the `/daily-word` handler (main.py lines
325-364), with the CSPRNG abstracted into `plan`, which yields the chosen
seed token and the `randbelow` sample for each attempt index.  `KSAAClient`
has no `search_batch`, so the concrete client takes the probe path. -/
def dailyLoop (client : Client) (plan : Nat → String × Nat) (lexicon_id : String)
    (total : Nat) (exW exE : List String) :
    Nat → Option Cand → Except PyErr (Option Cand)
  | 0, chosen => .ok chosen
  | fuel + 1, chosen =>
    match (match client.search_batch with
           | some sb =>
             (match sb lexicon_id ((plan (MAX_RANDOM_TRIES - (fuel + 1))).2 % max 1 total)
                 BATCH_SIZE (plan (MAX_RANDOM_TRIES - (fuel + 1))).1 with
              | .error e => Except.error e
              | .ok data => batchItems data)
           | none =>
             Except.ok (probeItems client lexicon_id total
               (plan (MAX_RANDOM_TRIES - (fuel + 1))).1
               ((plan (MAX_RANDOM_TRIES - (fuel + 1))).2 % max 1 total)
               (min BATCH_SIZE total))) with
    | .error e => .error e
    | .ok items =>
      match scanEntriesAux client lexicon_id exW exE items none with
      | .error e => .error e
      | .ok (some cand) =>
        if pyTruthyStrOpt cand.2.1 then .ok (some cand)
        else dailyLoop client plan lexicon_id total exW exE fuel (some cand)
      | .ok none => dailyLoop client plan lexicon_id total exW exE fuel chosen

/-- The `/daily-word` handler (main.py line 287) over a single-date cache
state: return the cached row unless refreshing; when refreshing, delete the
row but keep the old word/entry-id as exclusions; resolve the lexicon and
candidate total; run the attempt loop; upsert (insert-or-do-nothing) the
choice and return the read-back row.  Uncaught exceptions surface as HTTP
502 `Upstream failure`. -/
def daily_word (client : Client) (plan : Nat → String × Nat) (ymd : String)
    (db : Option CacheRow) (refresh : Bool) : HttpResult DailyWord × Option CacheRow :=
  match db, refresh with
  | some existing, false => (.ok (dailyFromRow ymd existing), some existing)
  | _, _ =>
    let db1 : Option CacheRow := if refresh && db.isSome then none else db
    let exW : List String := match db with | some e => [e.word] | none => []
    let exE : List String :=
      match db with
      | some e => (match e.entry_id with | some i => if i ≠ "" then [i] else [] | none => [])
      | none => []
    match client.find_lexicon_id with
    | .error e => (.httpError 502 ("Upstream failure: " ++ pyErrMsg e), db1)
    | .ok lexicon_id =>
      match client.count_candidates lexicon_id with
      | .error e => (.httpError 502 ("Upstream failure: " ++ pyErrMsg e), db1)
      | .ok total =>
        if total ≤ 0 then (.httpError 502 "No entries found in the target lexicon", db1)
        else
          match dailyLoop client plan lexicon_id total.toNat exW exE MAX_RANDOM_TRIES none with
          | .error e => (.httpError 502 ("Upstream failure: " ++ pyErrMsg e), db1)
          | .ok none => (.httpError 502 "Could not find a suitable (different) word today", db1)
          | .ok (some cand) =>
            let newRow : CacheRow :=
              { ymd := ymd, word := cand.1, definition := cand.2.1,
                entry_id := cand.2.2, lexicon_id := some lexicon_id }
            let saved := match db1 with | some row => row | none => newRow
            (.ok (dailyFromRow ymd saved), some saved)

/-- The per-batch scan of `_collect_words` (main.py lines 449-482): filter,
deduplicate against the seen sets, require a definition, and stop once
`need` items are gathered. -/
def collectScan (client : Client) (lexicon_id : String) (need min_len max_len : Nat) :
    List Json → List Cand → List String → List String →
    Except PyErr (List Cand × List String × List String)
  | [], got, seenW, seenE => .ok (got, seenW, seenE)
  | entry :: rest, got, seenW, seenE =>
    match entry with
    | .obj kvs =>
      if normalize_word kvs = "" ∨ is_ar_letters_only (normalize_word kvs) = false then
        collectScan client lexicon_id need min_len max_len rest got seenW seenE
      else if ¬ (min_len ≤ (strip_diacritics (normalize_word kvs)).length ∧
                 (strip_diacritics (normalize_word kvs)).length ≤ max_len) then
        collectScan client lexicon_id need min_len max_len rest got seenW seenE
      else if normalize_word kvs ∈ seenW then
        collectScan client lexicon_id need min_len max_len rest got seenW seenE
      else if eidExcluded (normalize_entry_id kvs) seenE = true then
        collectScan client lexicon_id need min_len max_len rest got seenW seenE
      else
        match resolveDefinition client lexicon_id (normalize_entry_id kvs) (normalize_word kvs) with
        | .error e => .error e
        | .ok defn =>
          if pyTruthyStrOpt defn = false then
            collectScan client lexicon_id need min_len max_len rest got seenW seenE
          else
            if need ≤ (got ++ [(normalize_word kvs, defn, normalize_entry_id kvs)]).length then
              .ok (got ++ [(normalize_word kvs, defn, normalize_entry_id kvs)],
                   seenW ++ [normalize_word kvs],
                   (match normalize_entry_id kvs with
                    | some e => if e ≠ "" then seenE ++ [e] else seenE
                    | none => seenE))
            else
              collectScan client lexicon_id need min_len max_len rest
                (got ++ [(normalize_word kvs, defn, normalize_entry_id kvs)])
                (seenW ++ [normalize_word kvs])
                (match normalize_entry_id kvs with
                 | some e => if e ≠ "" then seenE ++ [e] else seenE
                 | none => seenE)
    | _ => .error (.attributeError "entry object has no attribute get")

/-- The attempt loop of `_collect_words` (main.py lines 417-484), fuelled by
the attempt budget. -/
def collectLoop (client : Client) (plan : Nat → String × Nat) (lexicon_id : String)
    (total : Nat) (need min_len max_len batch_size max_attempts : Nat) :
    Nat → List Cand → List String → List String → Except PyErr (List Cand)
  | 0, got, _, _ => .ok got
  | fuel + 1, got, seenW, seenE =>
    if need ≤ got.length then .ok got
    else
      match (match client.search_batch with
             | some sb =>
               (match sb lexicon_id ((plan (max_attempts - (fuel + 1))).2 % max 1 total)
                   batch_size (plan (max_attempts - (fuel + 1))).1 with
                | .error e => Except.error e
                | .ok data => batchItems data)
             | none =>
               Except.ok (probeItems client lexicon_id total
                 (plan (max_attempts - (fuel + 1))).1
                 ((plan (max_attempts - (fuel + 1))).2 % max 1 total)
                 (min batch_size total))) with
      | .error e => .error e
      | .ok items =>
        match collectScan client lexicon_id need min_len max_len items got seenW seenE with
        | .error e => .error e
        | .ok (h2, w2, e2) =>
          collectLoop client plan lexicon_id total need min_len max_len batch_size
            max_attempts fuel h2 w2 e2

/-- Source `_collect_words` (main.py line 395): gather exactly `need`
definition-bearing words within `max(COLLECT_ATTEMPTS_MIN,
need * COLLECT_ATTEMPT_MULTIPLIER)` attempts.  All call sites pass a
positive `total` (guarded by the `total <= 0` check in the handlers). -/
def collect_words (client : Client) (plan : Nat → String × Nat) (lexicon_id : String)
    (total : Nat) (need min_len max_len batch_size : Nat) : Except PyErr (List Cand) :=
  let max_attempts := max COLLECT_ATTEMPTS_MIN (need * COLLECT_ATTEMPT_MULTIPLIER)
  collectLoop client plan lexicon_id total need min_len max_len batch_size max_attempts
    max_attempts [] [] []

/-- The `WordItem` response model (main.py line 59). -/
structure WordItem where
  word : String
  bare : String
  length : Nat
  definition : Option String
  entry_id : Option String
deriving DecidableEq, Repr

/-- The `WordListResponse` response model (main.py line 66). -/
structure WordListResponse where
  date : String
  lexicon_id : Option String
  count : Nat
  items : List WordItem
deriving DecidableEq, Repr

/-- The `/words` handler (main.py line 487): validate the length window,
resolve the lexicon and total, collect exactly `count` words, and fail with
a 502 when fewer were gathered.  Uncaught exceptions surface as HTTP 502
`Upstream failure`. -/
def list_words (client : Client) (plan : Nat → String × Nat) (ymd : String)
    (count min_len max_len : Nat) : HttpResult WordListResponse :=
  if min_len > max_len then .httpError 400 "min_len must be <= max_len"
  else
    match client.find_lexicon_id with
    | .error e => .httpError 502 ("Upstream failure: " ++ pyErrMsg e)
    | .ok lexicon_id =>
      match client.count_candidates lexicon_id with
      | .error e => .httpError 502 ("Upstream failure: " ++ pyErrMsg e)
      | .ok total =>
        if total ≤ 0 then .httpError 502 "No entries found in the target lexicon"
        else
          match collect_words client plan lexicon_id total.toNat count min_len max_len
                  BATCH_SIZE with
          | .error e => .httpError 502 ("Upstream failure: " ++ pyErrMsg e)
          | .ok triples =>
            if triples.length < count then
              .httpError 502 ("Could not collect " ++ toString count ++
                " items with definitions. Found " ++ toString triples.length ++
                ". Try reducing min_len/max_len or count.")
            else
              let items_out : List WordItem := triples.map (fun t =>
                { word := t.1, bare := strip_diacritics t.1,
                  length := (strip_diacritics t.1).length,
                  definition := t.2.1, entry_id := t.2.2 })
              .ok { date := ymd, lexicon_id := some lexicon_id,
                    count := items_out.length, items := items_out }

theorem pyStrip_empty : pyStrip "" = "" := rfl

theorem pyStrip_ne_empty {s : String} (h : pyStrip s ≠ "") : s ≠ "" := by
  intro hs; exact h (hs ▸ pyStrip_empty)

/-- C10: `strip_diacritics` is idempotent: every character of the diacritic
class is removed, so a second pass removes nothing. -/
theorem claim_C10_strip_diacritics_idempotent (s : String) :
    strip_diacritics (strip_diacritics s) = strip_diacritics s := by
  simp [strip_diacritics, List.filter_filter]

/-- C9: the test vectors of `extract_definition_from_senses`: a list of
plain strings yields its first string; a dict with a `senses` list yields its
first sense; an Arabic-tagged representation is preferred over an earlier
non-Arabic one; an empty list or a list of one empty dict yields nothing. -/
theorem claim_C9_extract_definition_vectors :
    extract_definition_from_senses (.arr [.str "hello"]) = some "hello" ∧
    extract_definition_from_senses (.arr [.obj [("senses", .arr [.str "a", .str "b"])]]) =
      some "a" ∧
    extract_definition_from_senses (.arr [.obj [("representations", .arr
      [.obj [("lang", .str "en"), ("text", .str "x")],
       .obj [("lang", .str "ar"), ("text", .str "y")]])]]) = some "y" ∧
    extract_definition_from_senses (.arr []) = none ∧
    extract_definition_from_senses (.arr [.obj []]) = none := by
  refine ⟨rfl, rfl, ?_, rfl, rfl⟩
  decide

/-- C7 counterexample: for a response whose `items` list is empty and which
carries no total field, `_collect_total` returns `max(1, 0) = 1`, not 0 as
the claim states. -/
theorem claim_C7_counterexample :
    ¬ (collect_total (Json.obj [("items", Json.arr [])]) = 0) := by decide

/-- C7 amended: `_collect_total` reads `total`, then `count`, then the nested
`page.totalElements`, and otherwise counts the returned items with a floor of
one (`max 1 len`) for an `items`/`content` list or a bare list payload —
so an empty items list yields 1 — returning 0 only when no recognised shape
is present; `count_candidates` returns that value when it is non-zero. -/
theorem claim_C7_amended_collect_total :
    (∀ (t : Int) (kvs : List (String × Json)),
       getKey kvs "total" = some (.num t) → collect_total (.obj kvs) = t) ∧
    (∀ (t : Int) (kvs : List (String × Json)),
       getKey kvs "total" = none → getKey kvs "count" = some (.num t) →
       collect_total (.obj kvs) = t) ∧
    (∀ (t : Int) (kvs pg : List (String × Json)),
       getKey kvs "total" = none → getKey kvs "count" = none →
       getKey kvs "page" = some (.obj pg) → getKey pg "totalElements" = some (.num t) →
       collect_total (.obj kvs) = t) ∧
    (∀ (l : List Json) (kvs : List (String × Json)),
       getKey kvs "total" = none → getKey kvs "count" = none →
       getKey kvs "page" = none → getKey kvs "items" = some (.arr l) →
       collect_total (.obj kvs) = max 1 (l.length : Int)) ∧
    (∀ (l : List Json) (kvs : List (String × Json)),
       getKey kvs "total" = none → getKey kvs "count" = none →
       getKey kvs "page" = none → getKey kvs "items" = none →
       getKey kvs "content" = some (.arr l) →
       collect_total (.obj kvs) = max 1 (l.length : Int)) ∧
    (∀ l : List Json, collect_total (.arr l) = max 1 (l.length : Int)) ∧
    collect_total (.obj []) = 0 ∧ collect_total .null = 0 ∧
    (∀ (up : Upstream) (lex : String) (d : Json),
       up.searchA (pyQ (some DEFAULT_QUERY)) lex 0 1 = .ok d → collect_total d ≠ 0 →
       ksaaCountCandidates up lex none = .ok (collect_total d)) := by
  refine ⟨?_, ?_, ?_, ?_, ?_, ?_, rfl, rfl, ?_⟩
  · intro t kvs h; simp [collect_total, h]
  · intro t kvs h1 h2; simp [collect_total, h1, h2]
  · intro t kvs pg h1 h2 h3 h4; simp [collect_total, h1, h2, h3, h4]
  · intro l kvs h1 h2 h3 h4; simp [collect_total, h1, h2, h3, h4]
  · intro l kvs h1 h2 h3 h4 h5; simp [collect_total, h1, h2, h3, h4, h5]
  · intro l; simp [collect_total]
  · intro up lex d h1 h2
    simp [ksaaCountCandidates, search_try_both, pyOrStr, h1, h2]

/-- C7 witness: the amended characterisation evaluated at concrete inputs. -/
theorem claim_C7_witness :
    collect_total (.obj [("total", .num 5)]) = 5 ∧
    collect_total (.obj [("items", .arr [])]) = max 1 (0 : Int) := by
  refine ⟨claim_C7_amended_collect_total.1 5 [("total", .num 5)] rfl, ?_⟩
  exact claim_C7_amended_collect_total.2.2.2.1 [] [("items", .arr [])] rfl rfl rfl rfl

/-- C8: `_search_try_both` uses the `lexiconId` + `offset`/`limit`
convention first; exactly an HTTP 400 or 404 status error triggers the one
retry with the `lexiconIds` + `page`/`size` convention (whose failure, being
returned directly, propagates); any other first-attempt error propagates
immediately. -/
theorem claim_C8_search_try_both_conventions :
    ∀ (up : Upstream) (query lexicon_id : String) (offset limit : Nat),
      (∀ d, up.searchA (pyQ (some query)) lexicon_id offset limit = .ok d →
         search_try_both up query lexicon_id offset limit = .ok d) ∧
      (∀ c m, up.searchA (pyQ (some query)) lexicon_id offset limit =
           .error (.httpStatus c m) →
         ((c = 400 ∨ c = 404) →
            search_try_both up query lexicon_id offset limit =
              up.searchB (pyQ (some query)) lexicon_id offset limit) ∧
         (¬ (c = 400 ∨ c = 404) →
            search_try_both up query lexicon_id offset limit =
              .error (.httpStatus c m))) ∧
      (∀ e, up.searchA (pyQ (some query)) lexicon_id offset limit = .error e →
         (∀ c m, e ≠ PyErr.httpStatus c m) →
         search_try_both up query lexicon_id offset limit = .error e) := by
  intro up query lexicon_id offset limit
  refine ⟨?_, ?_, ?_⟩
  · intro d h; simp [search_try_both, h]
  · intro c m h
    constructor
    · intro hc; simp [search_try_both, h, hc]
    · intro hc; simp [search_try_both, h, hc]
  · intro e h hne
    cases e with
    | typeError m => simp [search_try_both, h]
    | attributeError m => simp [search_try_both, h]
    | httpStatus c m => exact absurd rfl (hne c m)
    | runtime m => simp [search_try_both, h]

def up8 : Upstream :=
  { lexicons := .error (.runtime "n")
  , searchA := fun _ _ _ _ => .error (.httpStatus 400 "bad request")
  , searchB := fun _ _ _ _ => .ok (.obj [("total", .num 7)])
  , senses := fun _ _ => .error (.runtime "n") }

/-- C8 witness: a 400 on the first convention makes the call return the
second convention's response. -/
theorem claim_C8_witness :
    search_try_both up8 "ق" "L" 0 1 = .ok (.obj [("total", .num 7)]) := by
  have h := ((claim_C8_search_try_both_conventions up8 "ق" "L" 0 1).2.1
    400 "bad request" rfl).1 (Or.inl rfl)
  exact h.trans rfl

theorem idProbe_ne_empty {kvs : List (String × Json)} :
    ∀ {ks : List String} {s : String}, idProbe kvs ks = some s → s ≠ "" := by
  intro ks
  induction ks with
  | nil => intro s h; simp [idProbe] at h
  | cons k rest ih =>
    intro s h
    unfold idProbe at h
    split at h
    · split at h
      · exact ih h
      · rename_i s' _ hne
        injection h with h
        exact h ▸ pyStrip_ne_empty hne
    · split at h
      · exact ih h
      · rename_i n _ hne
        injection h with h
        exact h ▸ pyStrip_ne_empty hne
    · split at h
      · exact ih h
      · rename_i b _ hne
        injection h with h
        exact h ▸ pyStrip_ne_empty hne
    · exact ih h

theorem normalize_entry_id_ne_empty {kvs : List (String × Json)} {s : String}
    (h : normalize_entry_id kvs = some s) : s ≠ "" := by
  unfold normalize_entry_id at h
  split at h
  · rename_i s' heq
    injection h with h
    exact h ▸ idProbe_ne_empty heq
  · split at h
    · exact idProbe_ne_empty h
    · simp at h

/-- The filter conditions of `_scan_entries_for_candidate`, as recorded on an
accepted candidate. -/
def ScanGood (exW exE : List String) (c : Cand) : Prop :=
  ¬ (c.1 = "" ∨ is_ar_letters_only c.1 = false) ∧
  (MIN_LEN ≤ base_len_ar c.1 ∧ base_len_ar c.1 ≤ MAX_LEN) ∧
  ¬ (c.1 ∈ exW ∨ eidExcluded c.2.2 exE = true)

theorem scanAux_skip1 {client : Client} {lex : String} {exW exE : List String}
    {kvs : List (String × Json)} {rest : List Json} {best : Option Cand}
    (h1 : normalize_word kvs = "" ∨ is_ar_letters_only (normalize_word kvs) = false) :
    scanEntriesAux client lex exW exE (Json.obj kvs :: rest) best =
      scanEntriesAux client lex exW exE rest best := by
  simp only [scanEntriesAux]
  rw [if_pos h1]

theorem scanAux_skip2 {client : Client} {lex : String} {exW exE : List String}
    {kvs : List (String × Json)} {rest : List Json} {best : Option Cand}
    (h1 : ¬ (normalize_word kvs = "" ∨ is_ar_letters_only (normalize_word kvs) = false))
    (h2 : ¬ (MIN_LEN ≤ base_len_ar (normalize_word kvs) ∧
             base_len_ar (normalize_word kvs) ≤ MAX_LEN)) :
    scanEntriesAux client lex exW exE (Json.obj kvs :: rest) best =
      scanEntriesAux client lex exW exE rest best := by
  simp only [scanEntriesAux]
  rw [if_neg h1, if_pos h2]

theorem scanAux_skip3 {client : Client} {lex : String} {exW exE : List String}
    {kvs : List (String × Json)} {rest : List Json} {best : Option Cand}
    (h1 : ¬ (normalize_word kvs = "" ∨ is_ar_letters_only (normalize_word kvs) = false))
    (h2 : MIN_LEN ≤ base_len_ar (normalize_word kvs) ∧
          base_len_ar (normalize_word kvs) ≤ MAX_LEN)
    (h3 : normalize_word kvs ∈ exW ∨ eidExcluded (normalize_entry_id kvs) exE = true) :
    scanEntriesAux client lex exW exE (Json.obj kvs :: rest) best =
      scanEntriesAux client lex exW exE rest best := by
  simp only [scanEntriesAux]
  rw [if_neg h1, if_neg (not_not_intro h2), if_pos h3]

theorem scanAux_step {client : Client} {lex : String} {exW exE : List String}
    {kvs : List (String × Json)} {rest : List Json} {best : Option Cand}
    (h1 : ¬ (normalize_word kvs = "" ∨ is_ar_letters_only (normalize_word kvs) = false))
    (h2 : MIN_LEN ≤ base_len_ar (normalize_word kvs) ∧
          base_len_ar (normalize_word kvs) ≤ MAX_LEN)
    (h3 : ¬ (normalize_word kvs ∈ exW ∨ eidExcluded (normalize_entry_id kvs) exE = true)) :
    scanEntriesAux client lex exW exE (Json.obj kvs :: rest) best =
      (match resolveDefinition client lex (normalize_entry_id kvs) (normalize_word kvs) with
       | .error e => .error e
       | .ok defn =>
         if pyTruthyStrOpt defn then
           .ok (some (normalize_word kvs, defn, normalize_entry_id kvs))
         else
           scanEntriesAux client lex exW exE rest
             (match best with
              | none => some (normalize_word kvs, defn, normalize_entry_id kvs)
              | some b => some b)) := by
  simp only [scanEntriesAux]
  rw [if_neg h1, if_neg (not_not_intro h2), if_neg h3]

theorem scanAux_accept_good {client : Client} {lex : String} {exW exE : List String} :
    ∀ {items : List Json} {best : Option Cand} {res : Cand},
      (∀ c, best = some c → ScanGood exW exE c) →
      scanEntriesAux client lex exW exE items best = .ok (some res) →
      ScanGood exW exE res := by
  intro items
  induction items with
  | nil =>
    intro best res hbest h
    simp only [scanEntriesAux, Except.ok.injEq] at h
    exact hbest res h
  | cons entry rest ih =>
    intro best res hbest h
    cases entry with
    | obj kvs =>
      by_cases h1 : normalize_word kvs = "" ∨ is_ar_letters_only (normalize_word kvs) = false
      · rw [scanAux_skip1 h1] at h; exact ih hbest h
      · by_cases h2 : MIN_LEN ≤ base_len_ar (normalize_word kvs) ∧
                      base_len_ar (normalize_word kvs) ≤ MAX_LEN
        · by_cases h3 : normalize_word kvs ∈ exW ∨
                        eidExcluded (normalize_entry_id kvs) exE = true
          · rw [scanAux_skip3 h1 h2 h3] at h; exact ih hbest h
          · rw [scanAux_step h1 h2 h3] at h
            cases hre : resolveDefinition client lex (normalize_entry_id kvs)
                (normalize_word kvs) with
            | error e => simp [hre] at h
            | ok defn =>
              simp only [hre] at h
              by_cases h4 : pyTruthyStrOpt defn = true
              · rw [if_pos h4] at h
                injection h with h
                injection h with h
                subst h
                exact ⟨h1, h2, h3⟩
              · rw [if_neg h4] at h
                refine ih ?_ h
                intro c hc
                cases best with
                | none =>
                  injection hc with hc
                  subst hc
                  exact ⟨h1, h2, h3⟩
                | some b => exact hbest c hc
        · rw [scanAux_skip2 h1 h2] at h; exact ih hbest h
    | null => simp [scanEntriesAux] at h
    | bool b => simp [scanEntriesAux] at h
    | num n => simp [scanEntriesAux] at h
    | str s => simp [scanEntriesAux] at h
    | arr l => simp [scanEntriesAux] at h

theorem resolveDefinition_ksaa_some {cfg : KsaaConfig} {up : Upstream} {lex : String}
    {e word : String} (he : e ≠ "") :
    resolveDefinition (KSAAClient.toClient cfg up) lex (some e) word =
      .error (.typeError "get_senses() got an unexpected keyword argument lexicon_id") := by
  simp [resolveDefinition, KSAAClient.toClient, callKSAAGetSenses, acceptsKwargs,
    getSensesParams, he]

theorem resolveDefinition_ksaa_none {cfg : KsaaConfig} {up : Upstream} {lex : String}
    {word : String} :
    resolveDefinition (KSAAClient.toClient cfg up) lex none word =
      .error (.attributeError "KSAAClient object has no attribute get_senses_by_query") := rfl

theorem resolveDefinition_ksaa_error (cfg : KsaaConfig) (up : Upstream) (lex : String)
    (eid : Option String) (word : String) :
    ∃ e, resolveDefinition (KSAAClient.toClient cfg up) lex eid word = .error e := by
  cases eid with
  | none => exact ⟨_, resolveDefinition_ksaa_none⟩
  | some s =>
    by_cases hs : s = ""
    · subst hs; exact ⟨_, rfl⟩
    · exact ⟨_, resolveDefinition_ksaa_some hs⟩

theorem scanAux_ksaa {cfg : KsaaConfig} {up : Upstream} {lex : String} {exW exE : List String} :
    ∀ (items : List Json) (best : Option Cand),
      (∃ e, scanEntriesAux (KSAAClient.toClient cfg up) lex exW exE items best = .error e) ∨
      scanEntriesAux (KSAAClient.toClient cfg up) lex exW exE items best = .ok best := by
  intro items
  induction items with
  | nil => intro best; right; rfl
  | cons entry rest ih =>
    intro best
    cases entry with
    | obj kvs =>
      by_cases h1 : normalize_word kvs = "" ∨ is_ar_letters_only (normalize_word kvs) = false
      · rw [scanAux_skip1 h1]; exact ih best
      · by_cases h2 : MIN_LEN ≤ base_len_ar (normalize_word kvs) ∧
                      base_len_ar (normalize_word kvs) ≤ MAX_LEN
        · by_cases h3 : normalize_word kvs ∈ exW ∨
                        eidExcluded (normalize_entry_id kvs) exE = true
          · rw [scanAux_skip3 h1 h2 h3]; exact ih best
          · rw [scanAux_step h1 h2 h3]
            obtain ⟨e, he⟩ := resolveDefinition_ksaa_error cfg up lex
              (normalize_entry_id kvs) (normalize_word kvs)
            rw [he]
            exact Or.inl ⟨e, rfl⟩
        · rw [scanAux_skip2 h1 h2]; exact ih best
    | null => exact Or.inl ⟨_, rfl⟩
    | bool b => exact Or.inl ⟨_, rfl⟩
    | num n => exact Or.inl ⟨_, rfl⟩
    | str s => exact Or.inl ⟨_, rfl⟩
    | arr l => exact Or.inl ⟨_, rfl⟩

/-- The conjunction of filter checks of the candidate scans, as a predicate on
a raw entry: a dict whose normalized headword is non-blank, passes the
Arabic-letters check and the length window, and hits neither exclusion set. -/
def PassesFilters (entry : Json) (exW exE : List String) : Prop :=
  ∃ kvs, entry = Json.obj kvs ∧
    ¬ (normalize_word kvs = "" ∨ is_ar_letters_only (normalize_word kvs) = false) ∧
    (MIN_LEN ≤ base_len_ar (normalize_word kvs) ∧
     base_len_ar (normalize_word kvs) ≤ MAX_LEN) ∧
    ¬ (normalize_word kvs ∈ exW ∨ eidExcluded (normalize_entry_id kvs) exE = true)

theorem scanAux_pass_error {cfg : KsaaConfig} {up : Upstream} {lex : String}
    {exW exE : List String} :
    ∀ (items : List Json) (best : Option Cand),
      (∃ entry ∈ items, PassesFilters entry exW exE) →
      ∃ e, scanEntriesAux (KSAAClient.toClient cfg up) lex exW exE items best = .error e := by
  intro items
  induction items with
  | nil =>
    intro best h
    rcases h with ⟨x, hx, _⟩
    simp at hx
  | cons entry rest ih =>
    intro best h
    cases entry with
    | obj kvs =>
      by_cases h1 : normalize_word kvs = "" ∨ is_ar_letters_only (normalize_word kvs) = false
      · rw [scanAux_skip1 h1]
        refine ih best ?_
        rcases h with ⟨x, hx, hp⟩
        rcases List.mem_cons.mp hx with h' | h'
        · subst h'
          rcases hp with ⟨kvs2, heq, hc1, _⟩
          injection heq with heq
          exact absurd (heq ▸ h1) hc1
        · exact ⟨x, h', hp⟩
      · by_cases h2 : MIN_LEN ≤ base_len_ar (normalize_word kvs) ∧
                      base_len_ar (normalize_word kvs) ≤ MAX_LEN
        · by_cases h3 : normalize_word kvs ∈ exW ∨
                        eidExcluded (normalize_entry_id kvs) exE = true
          · rw [scanAux_skip3 h1 h2 h3]
            refine ih best ?_
            rcases h with ⟨x, hx, hp⟩
            rcases List.mem_cons.mp hx with h' | h'
            · subst h'
              rcases hp with ⟨kvs2, heq, _, _, hc3⟩
              injection heq with heq
              exact absurd (heq ▸ h3) hc3
            · exact ⟨x, h', hp⟩
          · rw [scanAux_step h1 h2 h3]
            obtain ⟨e, he⟩ := resolveDefinition_ksaa_error cfg up lex
              (normalize_entry_id kvs) (normalize_word kvs)
            rw [he]
            exact ⟨e, rfl⟩
        · rw [scanAux_skip2 h1 h2]
          refine ih best ?_
          rcases h with ⟨x, hx, hp⟩
          rcases List.mem_cons.mp hx with h' | h'
          · subst h'
            rcases hp with ⟨kvs2, heq, _, hc2, _⟩
            injection heq with heq
            exact absurd (heq ▸ hc2) h2
          · exact ⟨x, h', hp⟩
    | null => exact ⟨_, rfl⟩
    | bool b => exact ⟨_, rfl⟩
    | num n => exact ⟨_, rfl⟩
    | str s => exact ⟨_, rfl⟩
    | arr l => exact ⟨_, rfl⟩

theorem dailyLoop_ksaa {cfg : KsaaConfig} {up : Upstream} {plan : Nat → String × Nat}
    {lex : String} {total : Nat} {exW exE : List String} :
    ∀ (fuel : Nat) (chosen res : Option Cand),
      dailyLoop (KSAAClient.toClient cfg up) plan lex total exW exE fuel chosen = .ok res →
      res = chosen := by
  intro fuel
  induction fuel with
  | zero =>
    intro chosen res h
    simp only [dailyLoop, Except.ok.injEq] at h
    exact h.symm
  | succ n ih =>
    intro chosen res h
    rw [dailyLoop] at h
    split at h
    · exact absurd h (by simp)
    · rename_i items hitems
      split at h
      · exact absurd h (by simp)
      · rename_i cand hscan
        rcases @scanAux_ksaa cfg up lex exW exE items none with ⟨e, he⟩ | he
        · rw [he] at hscan; exact absurd hscan (by simp)
        · rw [he] at hscan; exact absurd hscan (by simp)
      · exact ih chosen res h

theorem dailyLoop_accept_good {client : Client} {plan : Nat → String × Nat} {lex : String}
    {total : Nat} {exW exE : List String} :
    ∀ (fuel : Nat) (chosen : Option Cand) (res : Cand),
      (∀ c, chosen = some c → ScanGood exW exE c) →
      dailyLoop client plan lex total exW exE fuel chosen = .ok (some res) →
      ScanGood exW exE res := by
  intro fuel
  induction fuel with
  | zero =>
    intro chosen res hch h
    simp only [dailyLoop, Except.ok.injEq] at h
    exact hch res h
  | succ n ih =>
    intro chosen res hch h
    rw [dailyLoop] at h
    split at h
    · exact absurd h (by simp)
    · rename_i items hitems
      split at h
      · exact absurd h (by simp)
      · rename_i cand hscan
        split_ifs at h with h4
        · injection h with h
          injection h with h
          subst h
          exact scanAux_accept_good (fun c hc => by cases hc) hscan
        · refine ih (some cand) res ?_ h
          intro c hc
          injection hc with hc
          subst hc
          exact scanAux_accept_good (fun c hc => by cases hc) hscan
      · exact ih chosen res hch h

/-- C4: with a cached row for today and no refresh requested, the daily-word
operation returns the stored record at once, leaves the cache unchanged, is
independent of the client and randomness (no upstream call can influence the
result), and a second call for the same date returns the identical result. -/
theorem claim_C4_cached_read_through :
    ∀ (client : Client) (plan : Nat → String × Nat) (ymd : String) (r : CacheRow),
      daily_word client plan ymd (some r) false = (.ok (dailyFromRow ymd r), some r) ∧
      (∀ (client2 : Client) (plan2 : Nat → String × Nat),
        daily_word client plan ymd (some r) false =
          daily_word client2 plan2 ymd (some r) false) ∧
      daily_word client plan ymd (daily_word client plan ymd (some r) false).2 false =
        daily_word client plan ymd (some r) false := by
  intro client plan ymd r
  exact ⟨rfl, fun _ _ => rfl, rfl⟩

/-- C3: a forced refresh on a date with a cached record puts the old word
(and entry id) into the exclusion sets that the candidate scan skips, so a
successfully returned refreshed record carries a different word. -/
theorem claim_C3_refresh_differs :
    ∀ (client : Client) (plan : Nat → String × Nat) (ymd : String) (r : CacheRow)
      (rec : DailyWord) (db2 : Option CacheRow),
      daily_word client plan ymd (some r) true = (.ok rec, db2) →
      rec.word ≠ r.word := by
  intro client plan ymd r rec db2 h
  simp only [daily_word, Option.isSome_some, Bool.and_self, eq_self_iff_true, if_true] at h
  split at h
  · exact absurd h (by simp)
  · rename_i lex hlex
    split at h
    · exact absurd h (by simp)
    · rename_i total htot
      split_ifs at h with hle
      · exact absurd h (by simp)
      · split at h
        · exact absurd h (by simp)
        · exact absurd h (by simp)
        · rename_i cand hloop
          have hg := dailyLoop_accept_good _ _ _ (fun c hc => by cases hc) hloop
          have hw : cand.1 ∉ [r.word] := fun hmem => hg.2.2 (Or.inl hmem)
          simp only [Prod.mk.injEq, HttpResult.ok.injEq] at h
          rw [← h.1]
          simp only [dailyFromRow]
          exact fun heq => hw (by simp [heq])

def c3client : Client :=
  { find_lexicon_id := .ok "L"
  , count_candidates := fun _ => .ok 3
  , search_batch := some (fun _ _ _ _ => .ok (.arr [Json.obj [("lemma", Json.str "كتاب")]]))
  , get_entry_by_index := fun _ _ _ => .error (.runtime "nope")
  , get_senses_call := fun _ _ => .ok (.arr [])
  , get_senses_by_query := some (fun _ _ => .ok (.arr [Json.str "تعريف"])) }

def c3row : CacheRow :=
  { ymd := "2026-01-01", word := "قديمة", definition := none,
    entry_id := none, lexicon_id := none }

/-- C3 witness: a concrete refresh run whose returned word must differ from
the previously cached word. -/
theorem claim_C3_witness :
    ({ date := "2026-01-01", word := "كتاب", definition := some "تعريف",
       entry_id := none, lexicon_id := some "L" } : DailyWord).word ≠ c3row.word :=
  claim_C3_refresh_differs c3client (fun _ => ("ا", 0)) "2026-01-01" c3row _ _ rfl

theorem collectScan_skip1 {client : Client} {lex : String} {need mn mx : Nat}
    {kvs : List (String × Json)} {rest : List Json} {got : List Cand}
    {seenW seenE : List String}
    (h1 : normalize_word kvs = "" ∨ is_ar_letters_only (normalize_word kvs) = false) :
    collectScan client lex need mn mx (Json.obj kvs :: rest) got seenW seenE =
      collectScan client lex need mn mx rest got seenW seenE := by
  simp only [collectScan]
  rw [if_pos h1]

theorem collectScan_skip2 {client : Client} {lex : String} {need mn mx : Nat}
    {kvs : List (String × Json)} {rest : List Json} {got : List Cand}
    {seenW seenE : List String}
    (h1 : ¬ (normalize_word kvs = "" ∨ is_ar_letters_only (normalize_word kvs) = false))
    (h2 : ¬ (mn ≤ (strip_diacritics (normalize_word kvs)).length ∧
             (strip_diacritics (normalize_word kvs)).length ≤ mx)) :
    collectScan client lex need mn mx (Json.obj kvs :: rest) got seenW seenE =
      collectScan client lex need mn mx rest got seenW seenE := by
  simp only [collectScan]
  rw [if_neg h1, if_pos h2]

theorem collectScan_skip3 {client : Client} {lex : String} {need mn mx : Nat}
    {kvs : List (String × Json)} {rest : List Json} {got : List Cand}
    {seenW seenE : List String}
    (h1 : ¬ (normalize_word kvs = "" ∨ is_ar_letters_only (normalize_word kvs) = false))
    (h2 : mn ≤ (strip_diacritics (normalize_word kvs)).length ∧
          (strip_diacritics (normalize_word kvs)).length ≤ mx)
    (h3 : normalize_word kvs ∈ seenW) :
    collectScan client lex need mn mx (Json.obj kvs :: rest) got seenW seenE =
      collectScan client lex need mn mx rest got seenW seenE := by
  simp only [collectScan]
  rw [if_neg h1, if_neg (not_not_intro h2), if_pos h3]

theorem collectScan_skip4 {client : Client} {lex : String} {need mn mx : Nat}
    {kvs : List (String × Json)} {rest : List Json} {got : List Cand}
    {seenW seenE : List String}
    (h1 : ¬ (normalize_word kvs = "" ∨ is_ar_letters_only (normalize_word kvs) = false))
    (h2 : mn ≤ (strip_diacritics (normalize_word kvs)).length ∧
          (strip_diacritics (normalize_word kvs)).length ≤ mx)
    (h3 : ¬ (normalize_word kvs ∈ seenW))
    (h4 : eidExcluded (normalize_entry_id kvs) seenE = true) :
    collectScan client lex need mn mx (Json.obj kvs :: rest) got seenW seenE =
      collectScan client lex need mn mx rest got seenW seenE := by
  simp only [collectScan]
  rw [if_neg h1, if_neg (not_not_intro h2), if_neg h3, if_pos h4]

theorem collectScan_step {client : Client} {lex : String} {need mn mx : Nat}
    {kvs : List (String × Json)} {rest : List Json} {got : List Cand}
    {seenW seenE : List String}
    (h1 : ¬ (normalize_word kvs = "" ∨ is_ar_letters_only (normalize_word kvs) = false))
    (h2 : mn ≤ (strip_diacritics (normalize_word kvs)).length ∧
          (strip_diacritics (normalize_word kvs)).length ≤ mx)
    (h3 : ¬ (normalize_word kvs ∈ seenW))
    (h4 : ¬ (eidExcluded (normalize_entry_id kvs) seenE = true)) :
    collectScan client lex need mn mx (Json.obj kvs :: rest) got seenW seenE =
      (match resolveDefinition client lex (normalize_entry_id kvs) (normalize_word kvs) with
       | .error e => .error e
       | .ok defn =>
         if pyTruthyStrOpt defn = false then
           collectScan client lex need mn mx rest got seenW seenE
         else
           if need ≤ (got ++ [(normalize_word kvs, defn, normalize_entry_id kvs)]).length then
             .ok (got ++ [(normalize_word kvs, defn, normalize_entry_id kvs)],
                  seenW ++ [normalize_word kvs],
                  (match normalize_entry_id kvs with
                   | some e => if e ≠ "" then seenE ++ [e] else seenE
                   | none => seenE))
           else
             collectScan client lex need mn mx rest
               (got ++ [(normalize_word kvs, defn, normalize_entry_id kvs)])
               (seenW ++ [normalize_word kvs])
               (match normalize_entry_id kvs with
                | some e => if e ≠ "" then seenE ++ [e] else seenE
                | none => seenE)) := by
  simp only [collectScan]
  rw [if_neg h1, if_neg (not_not_intro h2), if_neg h3, if_neg h4]

/-- The data collected so far by `_collect_words` and its validity: every
gathered candidate passed the filters, bears a definition, and the word /
entry-id lists are duplicate-free and recorded in the seen sets. -/
def CollGood (mn mx : Nat) (c : Cand) : Prop :=
  ¬ (c.1 = "" ∨ is_ar_letters_only c.1 = false) ∧
  (mn ≤ (strip_diacritics c.1).length ∧ (strip_diacritics c.1).length ≤ mx) ∧
  pyTruthyStrOpt c.2.1 = true ∧
  (∀ e, c.2.2 = some e → e ≠ "")

def CollInv (mn mx : Nat) (got : List Cand) (seenW seenE : List String) : Prop :=
  (∀ c ∈ got, CollGood mn mx c) ∧
  (got.map (fun c => c.1)).Nodup ∧
  (∀ c ∈ got, c.1 ∈ seenW) ∧
  (got.filterMap (fun c => c.2.2)).Nodup ∧
  (∀ c ∈ got, ∀ e, c.2.2 = some e → e ∈ seenE)

theorem CollInv.append {mn mx : Nat} {got : List Cand} {seenW seenE : List String}
    {kvs : List (String × Json)} {defn : Option String}
    (hinv : CollInv mn mx got seenW seenE)
    (h1 : ¬ (normalize_word kvs = "" ∨ is_ar_letters_only (normalize_word kvs) = false))
    (h2 : mn ≤ (strip_diacritics (normalize_word kvs)).length ∧
          (strip_diacritics (normalize_word kvs)).length ≤ mx)
    (h3 : ¬ (normalize_word kvs ∈ seenW))
    (h4 : ¬ (eidExcluded (normalize_entry_id kvs) seenE = true))
    (h5 : pyTruthyStrOpt defn = true) :
    CollInv mn mx (got ++ [(normalize_word kvs, defn, normalize_entry_id kvs)])
      (seenW ++ [normalize_word kvs])
      (match normalize_entry_id kvs with
       | some e => if e ≠ "" then seenE ++ [e] else seenE
       | none => seenE) := by
  obtain ⟨hg, hwn, hws, hen, hes⟩ := hinv
  refine ⟨?_, ?_, ?_, ?_, ?_⟩
  · intro c hc
    rcases List.mem_append.mp hc with hc | hc
    · exact hg c hc
    · simp only [List.mem_singleton] at hc
      subst hc
      exact ⟨h1, h2, h5, fun e he => normalize_entry_id_ne_empty he⟩
  · rw [List.map_append, List.nodup_append]
    refine ⟨hwn, by simp, ?_⟩
    intro x hx hx2
    simp only [List.map_cons, List.map_nil, List.mem_singleton] at hx2
    rcases List.mem_map.mp hx with ⟨c, hc, hcx⟩
    exact h3 (hx2 ▸ hcx ▸ hws c hc)
  · intro c hc
    rcases List.mem_append.mp hc with hc | hc
    · exact List.mem_append_left _ (hws c hc)
    · simp only [List.mem_singleton] at hc
      subst hc
      exact List.mem_append_right _ (by simp)
  · rw [List.filterMap_append]
    cases heid : normalize_entry_id kvs with
    | none => simpa using hen
    | some e =>
      have hne : e ≠ "" := normalize_entry_id_ne_empty heid
      have henot : e ∉ seenE := fun hmem => h4 (by simp [eidExcluded, heid, hne, hmem])
      simp only [List.filterMap_cons, List.filterMap_nil]
      rw [List.nodup_append]
      refine ⟨hen, by simp, ?_⟩
      intro x hx hx2
      simp only [List.mem_singleton] at hx2
      rcases List.mem_filterMap.mp hx with ⟨c, hc, hce⟩
      exact henot (hx2 ▸ hes c hc x hce)
  · intro c hc e' he'
    rcases List.mem_append.mp hc with hc | hc
    · have hmem := hes c hc e' he'
      cases heid : normalize_entry_id kvs with
      | none => simpa [heid] using hmem
      | some e =>
        have hne : e ≠ "" := normalize_entry_id_ne_empty heid
        simp only [heid, if_pos hne]
        exact List.mem_append_left _ hmem
    · simp only [List.mem_singleton] at hc
      subst hc
      simp only at he'
      rw [he']
      have hne : e' ≠ "" := normalize_entry_id_ne_empty he'
      simp only [if_pos hne]
      exact List.mem_append_right _ (by simp)

theorem collectScan_inv {client : Client} {lex : String} {need mn mx : Nat} :
    ∀ (items : List Json) (got : List Cand) (seenW seenE : List String)
      (res : List Cand × List String × List String),
      CollInv mn mx got seenW seenE → got.length < need →
      collectScan client lex need mn mx items got seenW seenE = .ok res →
      CollInv mn mx res.1 res.2.1 res.2.2 ∧ res.1.length ≤ need := by
  intro items
  induction items with
  | nil =>
    intro got seenW seenE res hinv hlt h
    simp only [collectScan, Except.ok.injEq] at h
    subst h
    exact ⟨hinv, Nat.le_of_lt hlt⟩
  | cons entry rest ih =>
    intro got seenW seenE res hinv hlt h
    cases entry with
    | obj kvs =>
      by_cases h1 : normalize_word kvs = "" ∨ is_ar_letters_only (normalize_word kvs) = false
      · rw [collectScan_skip1 h1] at h; exact ih _ _ _ _ hinv hlt h
      · by_cases h2 : mn ≤ (strip_diacritics (normalize_word kvs)).length ∧
                      (strip_diacritics (normalize_word kvs)).length ≤ mx
        · by_cases h3 : normalize_word kvs ∈ seenW
          · rw [collectScan_skip3 h1 h2 h3] at h; exact ih _ _ _ _ hinv hlt h
          · by_cases h4 : eidExcluded (normalize_entry_id kvs) seenE = true
            · rw [collectScan_skip4 h1 h2 h3 h4] at h; exact ih _ _ _ _ hinv hlt h
            · rw [collectScan_step h1 h2 h3 h4] at h
              cases hre : resolveDefinition client lex (normalize_entry_id kvs)
                  (normalize_word kvs) with
              | error e => simp [hre] at h
              | ok defn =>
                simp only [hre] at h
                by_cases h5 : pyTruthyStrOpt defn = false
                · rw [if_pos h5] at h; exact ih _ _ _ _ hinv hlt h
                · rw [if_neg h5] at h
                  have h5t : pyTruthyStrOpt defn = true := by
                    cases hx : pyTruthyStrOpt defn
                    · exact absurd hx h5
                    · rfl
                  have hinv2 := CollInv.append hinv h1 h2 h3 h4 h5t
                  have hlen2 : (got ++ [(normalize_word kvs, defn,
                      normalize_entry_id kvs)]).length = got.length + 1 := by simp
                  by_cases h6 : need ≤
                      (got ++ [(normalize_word kvs, defn, normalize_entry_id kvs)]).length
                  · rw [if_pos h6] at h
                    simp only [Except.ok.injEq] at h
                    subst h
                    exact ⟨hinv2, by rw [hlen2]; omega⟩
                  · rw [if_neg h6] at h
                    refine ih _ _ _ _ hinv2 ?_ h
                    rw [hlen2]
                    rw [hlen2] at h6
                    omega
        · rw [collectScan_skip2 h1 h2] at h; exact ih _ _ _ _ hinv hlt h
    | null => simp [collectScan] at h
    | bool b => simp [collectScan] at h
    | num n => simp [collectScan] at h
    | str s => simp [collectScan] at h
    | arr l => simp [collectScan] at h

theorem collectLoop_inv {client : Client} {plan : Nat → String × Nat} {lex : String}
    {total need mn mx bs ma : Nat} :
    ∀ (fuel : Nat) (got : List Cand) (seenW seenE : List String) (l : List Cand),
      CollInv mn mx got seenW seenE → got.length ≤ need →
      collectLoop client plan lex total need mn mx bs ma fuel got seenW seenE = .ok l →
      (∃ sw se, CollInv mn mx l sw se) ∧ l.length ≤ need := by
  intro fuel
  induction fuel with
  | zero =>
    intro got seenW seenE l hinv hle h
    simp only [collectLoop, Except.ok.injEq] at h
    subst h
    exact ⟨⟨seenW, seenE, hinv⟩, hle⟩
  | succ n ih =>
    intro got seenW seenE l hinv hle h
    rw [collectLoop] at h
    split_ifs at h with hfull
    · simp only [Except.ok.injEq] at h
      subst h
      exact ⟨⟨seenW, seenE, hinv⟩, hle⟩
    · split at h
      · exact absurd h (by simp)
      · rename_i items hitems
        split at h
        · exact absurd h (by simp)
        · rename_i g2 w2 e2 hscan
          obtain ⟨hinv2, hle2⟩ := collectScan_inv items got seenW seenE (g2, w2, e2) hinv
            (Nat.lt_of_not_le hfull) hscan
          exact ih g2 w2 e2 l hinv2 hle2 h

theorem collect_words_inv {client : Client} {plan : Nat → String × Nat} {lex : String}
    {total need mn mx bs : Nat} {l : List Cand}
    (h : collect_words client plan lex total need mn mx bs = .ok l) :
    (∃ sw se, CollInv mn mx l sw se) ∧ l.length ≤ need := by
  unfold collect_words at h
  exact collectLoop_inv _ [] [] [] l ⟨by simp, by simp, by simp, by simp, by simp⟩
    (by simp) h

theorem collectScan_ksaa {cfg : KsaaConfig} {up : Upstream} {lex : String}
    {need mn mx : Nat} :
    ∀ (items : List Json) (got : List Cand) (seenW seenE : List String)
      (res : List Cand × List String × List String),
      collectScan (KSAAClient.toClient cfg up) lex need mn mx items got seenW seenE =
        .ok res →
      res = (got, seenW, seenE) := by
  intro items
  induction items with
  | nil =>
    intro got seenW seenE res h
    simp only [collectScan, Except.ok.injEq] at h
    exact h.symm
  | cons entry rest ih =>
    intro got seenW seenE res h
    cases entry with
    | obj kvs =>
      by_cases h1 : normalize_word kvs = "" ∨ is_ar_letters_only (normalize_word kvs) = false
      · rw [collectScan_skip1 h1] at h; exact ih _ _ _ _ h
      · by_cases h2 : mn ≤ (strip_diacritics (normalize_word kvs)).length ∧
                      (strip_diacritics (normalize_word kvs)).length ≤ mx
        · by_cases h3 : normalize_word kvs ∈ seenW
          · rw [collectScan_skip3 h1 h2 h3] at h; exact ih _ _ _ _ h
          · by_cases h4 : eidExcluded (normalize_entry_id kvs) seenE = true
            · rw [collectScan_skip4 h1 h2 h3 h4] at h; exact ih _ _ _ _ h
            · rw [collectScan_step h1 h2 h3 h4] at h
              obtain ⟨e, he⟩ := resolveDefinition_ksaa_error cfg up lex
                (normalize_entry_id kvs) (normalize_word kvs)
              rw [he] at h
              exact absurd h (by simp)
        · rw [collectScan_skip2 h1 h2] at h; exact ih _ _ _ _ h
    | null => simp [collectScan] at h
    | bool b => simp [collectScan] at h
    | num n => simp [collectScan] at h
    | str s => simp [collectScan] at h
    | arr l => simp [collectScan] at h

theorem collectLoop_ksaa {cfg : KsaaConfig} {up : Upstream} {plan : Nat → String × Nat}
    {lex : String} {total need mn mx bs ma : Nat} :
    ∀ (fuel : Nat) (got : List Cand) (seenW seenE : List String) (l : List Cand),
      collectLoop (KSAAClient.toClient cfg up) plan lex total need mn mx bs ma fuel
        got seenW seenE = .ok l →
      l = got := by
  intro fuel
  induction fuel with
  | zero =>
    intro got seenW seenE l h
    simp only [collectLoop, Except.ok.injEq] at h
    exact h.symm
  | succ n ih =>
    intro got seenW seenE l h
    rw [collectLoop] at h
    split_ifs at h with hfull
    · simp only [Except.ok.injEq] at h
      exact h.symm
    · split at h
      · exact absurd h (by simp)
      · rename_i items hitems
        split at h
        · exact absurd h (by simp)
        · rename_i g2 w2 e2 hscan
          have := collectScan_ksaa items got seenW seenE (g2, w2, e2) hscan
          injection this with hg hwe
          injection hwe with hw he
          subst hg; subst hw; subst he
          exact ih _ _ _ _ h

theorem is_ar_letters_only_bare {w : String} (h : is_ar_letters_only w = true) :
    (strip_diacritics w).data ≠ [] ∧
    ((strip_diacritics w).data.all isArBaseLetter = true ∨
     ∃ ls, (strip_diacritics w).data = ls ++ ['\n'] ∧ ls ≠ [] ∧
       ls.all isArBaseLetter = true) := by
  unfold is_ar_letters_only at h
  rw [Bool.and_eq_true] at h
  obtain ⟨h1, h2⟩ := h
  constructor
  · intro hnil
    rw [hnil] at h1
    simp at h1
  · unfold lineMatchAr at h2
    rw [Bool.or_eq_true] at h2
    rcases h2 with h2 | h2
    · rw [Bool.and_eq_true] at h2
      exact Or.inl h2.2
    · right
      cases hr : (strip_diacritics w).data.reverse with
      | nil => rw [hr] at h2; simp at h2
      | cons c rest =>
        rw [hr] at h2
        simp only [Bool.and_eq_true, beq_iff_eq] at h2
        obtain ⟨hc, hne, hall⟩ := h2
        refine ⟨rest.reverse, ?_, ?_, ?_⟩
        · have hcs := congrArg List.reverse hr
          rw [List.reverse_reverse] at hcs
          rw [hcs, List.reverse_cons, hc]
        · intro hnil
          rw [List.reverse_eq_nil_iff] at hnil
          rw [hnil] at hne
          simp at hne
        · rw [List.all_eq_true] at hall ⊢
          intro x hx
          exact hall x (List.mem_reverse.mp hx)

theorem arTrue_of_filters {w : String}
    (h : ¬ (w = "" ∨ is_ar_letters_only w = false)) : is_ar_letters_only w = true := by
  rcases Bool.eq_false_or_eq_true (is_ar_letters_only w) with ht | hf
  · exact ht
  · exact absurd (Or.inr hf) h

/-- The (amended) post-condition on an accepted word: its bare form is
non-empty, consists of Arabic base letters up to one trailing newline that
the Python `$` anchor tolerates, and its length lies in the window. -/
def BareOk (mn mx : Nat) (w : String) : Prop :=
  (strip_diacritics w).data ≠ [] ∧
  ((strip_diacritics w).data.all isArBaseLetter = true ∨
   ∃ ls, (strip_diacritics w).data = ls ++ ['\n'] ∧ ls ≠ [] ∧
     ls.all isArBaseLetter = true) ∧
  mn ≤ (strip_diacritics w).length ∧ (strip_diacritics w).length ≤ mx

theorem bareOk_of_good {w : String} {mn mx : Nat}
    (h1 : ¬ (w = "" ∨ is_ar_letters_only w = false))
    (h2 : mn ≤ (strip_diacritics w).length ∧ (strip_diacritics w).length ≤ mx) :
    BareOk mn mx w := by
  obtain ⟨hne, hline⟩ := is_ar_letters_only_bare (arTrue_of_filters h1)
  exact ⟨hne, hline, h2⟩

theorem daily_word_ksaa_502 {cfg : KsaaConfig} {up : Upstream} {plan : Nat → String × Nat}
    {ymd : String} (db : Option CacheRow) (refresh : Bool)
    (h : db = none ∨ refresh = true) :
    ∃ d, (daily_word (KSAAClient.toClient cfg up) plan ymd db refresh).1 =
      .httpError 502 d := by
  rcases db with _ | r
  · simp only [daily_word, Option.isSome_none, Bool.and_false]
    cases hf : (KSAAClient.toClient cfg up).find_lexicon_id with
    | error e => exact ⟨"Upstream failure: " ++ pyErrMsg e, by simp [hf]⟩
    | ok lex =>
      cases hc : (KSAAClient.toClient cfg up).count_candidates lex with
      | error e => exact ⟨"Upstream failure: " ++ pyErrMsg e, by simp [hf, hc]⟩
      | ok total =>
        by_cases ht : total ≤ 0
        · exact ⟨"No entries found in the target lexicon", by simp [hf, hc, ht]⟩
        · cases hd : dailyLoop (KSAAClient.toClient cfg up) plan lex total.toNat [] []
              MAX_RANDOM_TRIES none with
          | error e => exact ⟨"Upstream failure: " ++ pyErrMsg e, by simp [hf, hc, ht, hd]⟩
          | ok chosen =>
            have hch := dailyLoop_ksaa _ _ _ hd
            subst hch
            exact ⟨"Could not find a suitable (different) word today",
              by simp [hf, hc, ht, hd]⟩
  · have hr : refresh = true := by
      rcases h with h | h
      · exact absurd h (by simp)
      · exact h
    subst hr
    simp only [daily_word, Option.isSome_some, Bool.and_self, eq_self_iff_true, if_true]
    cases hf : (KSAAClient.toClient cfg up).find_lexicon_id with
    | error e => exact ⟨"Upstream failure: " ++ pyErrMsg e, by simp [hf]⟩
    | ok lex =>
      cases hc : (KSAAClient.toClient cfg up).count_candidates lex with
      | error e => exact ⟨"Upstream failure: " ++ pyErrMsg e, by simp [hf, hc]⟩
      | ok total =>
        by_cases ht : total ≤ 0
        · exact ⟨"No entries found in the target lexicon", by simp [hf, hc, ht]⟩
        · cases hd : dailyLoop (KSAAClient.toClient cfg up) plan lex total.toNat [r.word]
              (match r.entry_id with
               | some i => if i = "" then [] else [i]
               | none => []) MAX_RANDOM_TRIES none with
          | error e => exact ⟨"Upstream failure: " ++ pyErrMsg e, by simp [hf, hc, ht, hd]⟩
          | ok chosen =>
            have hch := dailyLoop_ksaa _ _ _ hd
            subst hch
            exact ⟨"Could not find a suitable (different) word today",
              by simp [hf, hc, ht, hd]⟩

theorem list_words_ksaa_502 {cfg : KsaaConfig} {up : Upstream} {plan : Nat → String × Nat}
    {ymd : String} (count mn mx : Nat) (hcount : 1 ≤ count) (hmm : mn ≤ mx) :
    ∃ d, list_words (KSAAClient.toClient cfg up) plan ymd count mn mx =
      .httpError 502 d := by
  have h0 : ¬ (mn > mx) := not_lt.mpr hmm
  cases hf : (KSAAClient.toClient cfg up).find_lexicon_id with
  | error e => exact ⟨"Upstream failure: " ++ pyErrMsg e, by simp [list_words, h0, hf]⟩
  | ok lex =>
    cases hc : (KSAAClient.toClient cfg up).count_candidates lex with
    | error e => exact ⟨"Upstream failure: " ++ pyErrMsg e, by simp [list_words, h0, hf, hc]⟩
    | ok total =>
      by_cases ht : total ≤ 0
      · exact ⟨"No entries found in the target lexicon",
          by simp [list_words, h0, hf, hc, ht]⟩
      · cases hw : collect_words (KSAAClient.toClient cfg up) plan lex total.toNat
            count mn mx BATCH_SIZE with
        | error e => exact ⟨"Upstream failure: " ++ pyErrMsg e,
            by simp [list_words, h0, hf, hc, ht, hw]⟩
        | ok l =>
          have hl : l = [] := by
            unfold collect_words at hw
            exact collectLoop_ksaa _ _ _ _ _ hw
          subst hl
          have hlen : ([] : List Cand).length < count := by simpa using hcount
          exact ⟨"Could not collect " ++ toString count ++
              " items with definitions. Found " ++ toString ([] : List Cand).length ++
              ". Try reducing min_len/max_len or count.",
            by simp [list_words, h0, hf, hc, ht, hw, hlen]; omega⟩

/-- C1: the definition-resolution step of both candidate scans is broken
against the concrete `KSAAClient`: with an entry id present, the call
`get_senses(eid, lexicon_id=...)` passes a keyword the signature
(`entry_id` only) does not accept and raises `TypeError`; without one, the
fallback call targets `get_senses_by_query`, which `KSAAClient` does not
define, and raises `AttributeError`.  Hence the scan raises on every
filter-passing entry, the daily-word operation never returns a freshly
selected word (every non-cached request ends in a 502), and every
well-formed `/words` request ends in a 502. -/
theorem claim_C1_definition_lookup_always_raises :
    (∀ (cfg : KsaaConfig) (up : Upstream) (lex word e : String), e ≠ "" →
       resolveDefinition (KSAAClient.toClient cfg up) lex (some e) word =
         .error (.typeError "get_senses() got an unexpected keyword argument lexicon_id")) ∧
    (∀ (cfg : KsaaConfig) (up : Upstream) (lex word : String),
       resolveDefinition (KSAAClient.toClient cfg up) lex none word =
         .error (.attributeError "KSAAClient object has no attribute get_senses_by_query")) ∧
    (∀ (cfg : KsaaConfig) (up : Upstream) (items : List Json) (lex : String)
       (exW exE : List String),
       (∃ entry ∈ items, PassesFilters entry exW exE) →
       ∃ e, scanEntries (KSAAClient.toClient cfg up) items lex exW exE = .error e) ∧
    (∀ (cfg : KsaaConfig) (up : Upstream) (plan : Nat → String × Nat) (ymd : String)
       (db : Option CacheRow) (refresh : Bool),
       db = none ∨ refresh = true →
       ∃ d, (daily_word (KSAAClient.toClient cfg up) plan ymd db refresh).1 =
         .httpError 502 d) ∧
    (∀ (cfg : KsaaConfig) (up : Upstream) (plan : Nat → String × Nat) (ymd : String)
       (count mn mx : Nat), 1 ≤ count → mn ≤ mx →
       ∃ d, list_words (KSAAClient.toClient cfg up) plan ymd count mn mx =
         .httpError 502 d) := by
  refine ⟨?_, ?_, ?_, ?_, ?_⟩
  · intro cfg up lex word e he
    exact resolveDefinition_ksaa_some he
  · intro cfg up lex word
    exact resolveDefinition_ksaa_none
  · intro cfg up items lex exW exE hpass
    exact scanAux_pass_error items none hpass
  · intro cfg up plan ymd db refresh h
    exact daily_word_ksaa_502 db refresh h
  · intro cfg up plan ymd count mn mx h1 h2
    exact list_words_ksaa_502 count mn mx h1 h2

def c1cfg : KsaaConfig := { lexicon_id := some "L", lexicon_name := "معجم" }

def c1up : Upstream :=
  { lexicons := .error (.runtime "unavailable")
  , searchA := fun _ _ _ _ => .ok (.obj [("total", .num 50)])
  , searchB := fun _ _ _ _ => .error (.httpStatus 400 "bad request")
  , senses := fun _ _ => .ok (.arr [Json.str "تعريف"]) }

/-- C1 witness: against a concrete upstream that answers searches, the scan
raises on a filter-passing entry, and both endpoints end in HTTP 502. -/
theorem claim_C1_witness :
    resolveDefinition (KSAAClient.toClient c1cfg c1up) "L" (some "E7") "كتاب" =
      .error (.typeError "get_senses() got an unexpected keyword argument lexicon_id") ∧
    (∃ e, scanEntries (KSAAClient.toClient c1cfg c1up)
        [Json.obj [("lemma", Json.str "كتاب")]] "L" [] [] = .error e) ∧
    (∃ d, (daily_word (KSAAClient.toClient c1cfg c1up) (fun _ => ("ا", 0)) "2026-01-01"
        none false).1 = .httpError 502 d) ∧
    (∃ d, list_words (KSAAClient.toClient c1cfg c1up) (fun _ => ("ا", 0)) "2026-01-01"
        1 4 7 = .httpError 502 d) := by
  refine ⟨?_, ?_, ?_, ?_⟩
  · exact claim_C1_definition_lookup_always_raises.1 c1cfg c1up "L" "كتاب" "E7" (by decide)
  · exact claim_C1_definition_lookup_always_raises.2.2.1 c1cfg c1up
      [Json.obj [("lemma", Json.str "كتاب")]] "L" [] []
      ⟨Json.obj [("lemma", Json.str "كتاب")], by simp,
       ⟨[("lemma", Json.str "كتاب")], rfl, by decide, by decide, by decide⟩⟩
  · exact claim_C1_definition_lookup_always_raises.2.2.2.1 c1cfg c1up
      (fun _ => ("ا", 0)) "2026-01-01" none false (Or.inl rfl)
  · exact claim_C1_definition_lookup_always_raises.2.2.2.2 c1cfg c1up
      (fun _ => ("ا", 0)) "2026-01-01" 1 4 7 (by decide) (by decide)

/-- C2: the `/words` operation either fails with an HTTP error or returns
exactly the requested count of items; when the collector gathers fewer than
`count` words within the attempt budget, the operation fails with the 502
`Could not collect` error and never returns a shorter list. -/
theorem claim_C2_exact_count_or_error :
    (∀ (client : Client) (plan : Nat → String × Nat) (ymd : String) (count mn mx : Nat),
       (∃ s d, list_words client plan ymd count mn mx = .httpError s d) ∨
       (∃ resp, list_words client plan ymd count mn mx = .ok resp ∧
          resp.items.length = count ∧ resp.count = count)) ∧
    (∀ (client : Client) (plan : Nat → String × Nat) (ymd : String) (count mn mx : Nat)
       (lex : String) (total : Int) (l : List Cand),
       mn ≤ mx →
       client.find_lexicon_id = .ok lex →
       client.count_candidates lex = .ok total →
       0 < total →
       collect_words client plan lex total.toNat count mn mx BATCH_SIZE = .ok l →
       l.length < count →
       list_words client plan ymd count mn mx =
         .httpError 502 ("Could not collect " ++ toString count ++
           " items with definitions. Found " ++ toString l.length ++
           ". Try reducing min_len/max_len or count.")) := by
  constructor
  · intro client plan ymd count mn mx
    cases hres : list_words client plan ymd count mn mx with
    | httpError s d => exact Or.inl ⟨s, d, rfl⟩
    | ok resp =>
      refine Or.inr ⟨resp, rfl, ?_⟩
      rw [list_words] at hres
      by_cases h0 : mn > mx
      · rw [if_pos h0] at hres; exact absurd hres (by simp)
      · rw [if_neg h0] at hres
        split at hres
        · exact absurd hres (by simp)
        · rename_i lex hf
          split at hres
          · exact absurd hres (by simp)
          · rename_i total hc
            by_cases ht : total ≤ 0
            · rw [if_pos ht] at hres; exact absurd hres (by simp)
            · rw [if_neg ht] at hres
              split at hres
              · exact absurd hres (by simp)
              · rename_i l hw
                by_cases hlen : l.length < count
                · rw [if_pos hlen] at hres; exact absurd hres (by simp)
                · rw [if_neg hlen] at hres
                  have hle := (collect_words_inv hw).2
                  have hleq : l.length = count :=
                    le_antisymm hle (Nat.le_of_not_lt hlen)
                  simp only [HttpResult.ok.injEq] at hres
                  subst hres
                  constructor
                  · simp [hleq]
                  · simp [hleq]
  · intro client plan ymd count mn mx lex total l hmm hf hc ht hw hlen
    have h0 : ¬ (mn > mx) := not_lt.mpr hmm
    have ht2 : ¬ (total ≤ 0) := not_le.mpr ht
    simp [list_words, h0, hf, hc, ht2, hw, hlen]

def c2client : Client :=
  { find_lexicon_id := .ok "L"
  , count_candidates := fun _ => .ok 5
  , search_batch := some (fun _ _ _ _ => .ok (.arr []))
  , get_entry_by_index := fun _ _ _ => .error (.runtime "nope")
  , get_senses_call := fun _ _ => .ok (.arr [])
  , get_senses_by_query := some (fun _ _ => .ok (.arr [])) }

set_option maxRecDepth 4000 in
/-- C2 witness: a client whose batches are always empty makes `/words`
fail with the 502 `Could not collect` error after the full attempt budget. -/
theorem claim_C2_witness :
    list_words c2client (fun _ => ("ا", 0)) "2026-01-01" 10 4 7 =
      .httpError 502 ("Could not collect " ++ toString 10 ++
        " items with definitions. Found " ++ toString ([] : List Cand).length ++
        ". Try reducing min_len/max_len or count.") :=
  claim_C2_exact_count_or_error.2 c2client (fun _ => ("ا", 0)) "2026-01-01" 10 4 7
    "L" 5 [] (by decide) rfl rfl (by decide) rfl (by decide)

/-- C5: one batch-collection run of `_collect_words` never returns two items
with the same surface word, nor two items sharing a present entry id. -/
theorem claim_C5_no_duplicates :
    ∀ (client : Client) (plan : Nat → String × Nat) (lex : String)
      (total need mn mx bs : Nat) (l : List Cand),
      collect_words client plan lex total need mn mx bs = .ok l →
      (l.map (fun c => c.1)).Nodup ∧ (l.filterMap (fun c => c.2.2)).Nodup := by
  intro client plan lex total need mn mx bs l h
  obtain ⟨⟨sw, se, hinv⟩, _⟩ := collect_words_inv h
  exact ⟨hinv.2.1, hinv.2.2.2.1⟩

def c5client : Client :=
  { find_lexicon_id := .ok "L"
  , count_candidates := fun _ => .ok 5
  , search_batch := some (fun _ _ _ _ => .ok (.arr
      [Json.obj [("lemma", Json.str "كتاب"), ("id", Json.str "E1")],
       Json.obj [("lemma", Json.str "كتاب"), ("id", Json.str "E1")],
       Json.obj [("lemma", Json.str "مدرسة"), ("id", Json.str "E2")]]))
  , get_entry_by_index := fun _ _ _ => .error (.runtime "nope")
  , get_senses_call := fun _ _ => .ok (.arr [Json.str "تعريف"])
  , get_senses_by_query := some (fun _ _ => .ok (.arr [Json.str "تعريف"])) }

/-- C5 witness: a batch repeating the same entry yields a duplicate-free
collected list. -/
theorem claim_C5_witness :
    (([("كتاب", some "تعريف", some "E1"), ("مدرسة", some "تعريف", some "E2")] :
        List Cand).map (fun c => c.1)).Nodup ∧
    (([("كتاب", some "تعريف", some "E1"), ("مدرسة", some "تعريف", some "E2")] :
        List Cand).filterMap (fun c => c.2.2)).Nodup :=
  claim_C5_no_duplicates c5client (fun _ => ("ا", 0)) "L" 5 2 4 7 100
    [("كتاب", some "تعريف", some "E1"), ("مدرسة", some "تعريف", some "E2")] rfl

def c6client : Client :=
  { find_lexicon_id := .ok "L"
  , count_candidates := fun _ => .ok 1
  , search_batch := none
  , get_entry_by_index := fun _ _ _ => .error (.runtime "nope")
  , get_senses_call := fun _ _ => .ok (.arr [])
  , get_senses_by_query := some (fun _ _ => .ok (.arr [Json.str "تعريف"])) }

/-- C6 counterexample: the scan accepts the headword whose bare form is
`"ابجد\n"` — the Python `$` anchor tolerates one trailing newline — so an
accepted word's diacritic-stripped form need not consist of Arabic base
letters only, refuting the claim as stated. -/
theorem claim_C6_counterexample :
    scanEntries c6client [Json.obj [("lemma", Json.str "ابجد\nً")]] "L" [] [] =
      .ok (some ("ابجد\nً", some "تعريف", none)) ∧
    (strip_diacritics "ابجد\nً").data.all isArBaseLetter = false := by
  exact ⟨rfl, by decide⟩

/-- C6 amended: every word accepted by `_scan_entries_for_candidate` or
`_collect_words` has a non-empty diacritic-stripped form whose characters are
Arabic base letters, except that a single trailing newline is also tolerated
by the `^[ء-ي]+$` match, and whose length lies within the
configured window. -/
theorem claim_C6_amended_accepted_words :
    (∀ (client : Client) (items : List Json) (lex : String) (exW exE : List String)
       (res : Cand),
       scanEntries client items lex exW exE = .ok (some res) →
       BareOk MIN_LEN MAX_LEN res.1) ∧
    (∀ (client : Client) (plan : Nat → String × Nat) (lex : String)
       (total need mn mx bs : Nat) (l : List Cand),
       collect_words client plan lex total need mn mx bs = .ok l →
       ∀ c ∈ l, BareOk mn mx c.1) := by
  constructor
  · intro client items lex exW exE res h
    obtain ⟨h1, h2, _⟩ := scanAux_accept_good (fun c hc => by cases hc) h
    exact bareOk_of_good h1 h2
  · intro client plan lex total need mn mx bs l h c hc
    obtain ⟨⟨sw, se, hinv⟩, _⟩ := collect_words_inv h
    obtain ⟨h1, h2, _, _⟩ := hinv.1 c hc
    exact bareOk_of_good h1 h2

/-- C6 witness: the amended property evaluated on a concretely accepted
word. -/
theorem claim_C6_witness : BareOk MIN_LEN MAX_LEN "كتاب" :=
  claim_C6_amended_accepted_words.1 c6client [Json.obj [("lemma", Json.str "كتاب")]]
    "L" [] [] ("كتاب", some "تعريف", none) rfl
